import Mathlib

/-!
# Alertmanager distributor (`pkg/alertmanager/distributor/distributor.go`)

A shallow embedding of the request-routing code of the Alertmanager
distributor and the properties of it that the specification states.

Modelling conventions.

* A Go `string` / `[]byte` is a finite sequence of bytes: `GoString`.
* `uint32` values are natural numbers reduced modulo `2^32`.
* The code never reads the counters, the wait group or the log it writes
  to.  Every function therefore returns, next to its result, the list of
  effects (`Event`s) it performed, in program order; `Counters.run`
  replays such a list on the mutable fields of the `Distributor` struct.
* `http.ResponseWriter` is the response writer of `net/http`, modelled by
  the record of what was written to it (header map, status code of the
  first `WriteHeader`, body bytes); `WriteHeader` panics on a status code
  that has not three digits, as `net/http` does.
* A panic ends the function that raises it and every caller up to the
  handler; deferred calls still run.  Functions that can panic return an
  `Outcome` next to their results.
* Contexts (deadlines, cancellation, tracing and source-IP metadata) carry
  no data that the modelled control flow depends on and are left out.
-/

namespace distributor

/-! ## Strings and bytes -/

/-- A Go string: an immutable sequence of bytes. -/
abbrev GoString := List UInt8

/-- The bytes of a string literal (its UTF-8 encoding, as in Go source). -/
def str (s : String) : GoString := s.toUTF8.data.toList

/-! ## `hash/fnv`: the 32-bit FNV-1a hasher used by `shardByUser` -/

namespace fnv

/-- The constant `offset32` of `hash/fnv`. -/
def offset32 : Nat := 2166136261

/-- The constant `prime32` of `hash/fnv`. -/
def prime32 : Nat := 16777619

/-- The constructor `fnv.New32a()`: a fresh hasher, whose state is the offset basis. -/
def New32a : Nat := offset32

/-- The method `(*sum32a).Write`: `for _, c := range data { hash ^= sum32a(c); hash *= prime32 }`
on a `uint32` state. -/
def Write (s : Nat) (data : List UInt8) : Nat :=
  data.foldl (fun hash c => ((hash ^^^ c.toNat) * prime32) % 2 ^ 32) s

/-- The method `(*sum32a).Sum32`: the current state. -/
def Sum32 (s : Nat) : Nat := s

end fnv

/-- The function `shardByUser`: hash the tenant ID with a fresh FNV-1a hasher. -/
def shardByUser (userID : GoString) : Nat :=
  let ringHasher := fnv.New32a
  let ringHasher := fnv.Write ringHasher userID
  fnv.Sum32 ringHasher

/-- The 32-bit FNV-1a hash as the specification words it: starting from `h`,
for each byte in order `h := ((h XOR byte) * 16777619) mod 2^32`. -/
def fnv1aFrom : Nat → List UInt8 → Nat
  | h, [] => h
  | h, b :: bs => fnv1aFrom (((h ^^^ b.toNat) * 16777619) % 2 ^ 32) bs

/-! ## `strings.HasSuffix` and the admission gate -/

namespace strings

/-- The function `strings.HasSuffix`:
`len(s) >= len(suffix) && s[len(s)-len(suffix):] == suffix`. -/
def HasSuffix (s suffix : GoString) : Bool :=
  decide (s.length ≥ suffix.length) && (s.drop (s.length - suffix.length) == suffix)

end strings

/-- The method `Distributor.IsPathSupported`: the path ends in one of the two
supported routes. -/
def IsPathSupported (path : GoString) : Bool :=
  strings.HasSuffix path (str "/alerts") ||
    strings.HasSuffix path (str "/alerts/groups")


/-! ## Wire types: `httpgrpc`, `alertmanagerpb`, `ring` -/

/-- The message `httpgrpc.Header`: one key with its ordered values. -/
structure httpgrpc.Header where
  Key : GoString
  Values : List GoString
deriving DecidableEq

/-- The message `httpgrpc.HTTPRequest`. -/
structure httpgrpc.HTTPRequest where
  Method : GoString
  Url : GoString
  Headers : List httpgrpc.Header
  Body : List UInt8
deriving DecidableEq

/-- The message `httpgrpc.HTTPResponse`; `Code` is an `int32`. -/
structure httpgrpc.HTTPResponse where
  Code : Int
  Headers : List httpgrpc.Header
  Body : List UInt8
deriving DecidableEq

/-- The enum `alertmanagerpb.Status`. -/
inductive alertmanagerpb.Status where
  | OK
  | ERROR
deriving DecidableEq

/-- The message `alertmanagerpb.Request`. -/
structure alertmanagerpb.Request where
  HttpRequest : httpgrpc.HTTPRequest
deriving DecidableEq

/-- The message `alertmanagerpb.Response`: a status tag, an optional embedded
HTTP response (a nil pointer is `none`) and an error string. -/
structure alertmanagerpb.Response where
  Status : alertmanagerpb.Status
  HttpResponse : Option httpgrpc.HTTPResponse
  Error : GoString
deriving DecidableEq

/-- The getter `(*Response).GetStatus`. -/
def alertmanagerpb.Response.GetStatus (resp : alertmanagerpb.Response) : alertmanagerpb.Status :=
  resp.Status

/-- The enum `ring.IngesterState`. -/
inductive ring.IngesterState where
  | ACTIVE
  | LEAVING
  | PENDING
  | JOINING
  | LEFT
deriving DecidableEq

/-- The fields of `ring.IngesterDesc` the distributor reads (`Addr`), and the
health state the ring filters on. -/
structure ring.IngesterDesc where
  Addr : GoString
  State : ring.IngesterState
deriving DecidableEq

/-- The struct `ring.ReplicationSet`. -/
structure ring.ReplicationSet where
  Ingesters : List ring.IngesterDesc
  MaxErrors : Nat
deriving DecidableEq

/-! ## Errors: `errors.New`, `errors.Wrapf`, `errors.Cause`, `httpgrpc` errors -/

/-- A Go `error` value, as far as the distributor can tell errors apart:
a plain error, a gRPC status error that carries one `httpgrpc.HTTPResponse`
as its detail, or an error wrapped with a message by `errors.Wrapf`. -/
inductive GoError where
  | plain (msg : GoString)
  | httpgrpc (msg : GoString) (resp : httpgrpc.HTTPResponse)
  | wrapped (msg : GoString) (cause : GoError)
deriving DecidableEq

/-- The method `err.Error()`: the textual description. -/
def GoError.Error : GoError → GoString
  | .plain msg => msg
  | .httpgrpc msg _ => msg
  | .wrapped msg cause => msg ++ str ": " ++ cause.Error

namespace errors

/-- The function `errors.New`. -/
def New (msg : GoString) : GoError := .plain msg

/-- The function `errors.Wrapf` on a non-nil error. -/
def Wrapf (err : GoError) (msg : GoString) : GoError := .wrapped msg err

/-- The function `errors.Cause`: unwrap down to the innermost error. -/
def Cause : GoError → GoError
  | .wrapped _ cause => Cause cause
  | err => err

end errors

/-- The function `httpgrpc.HTTPResponseFromError`: the structured response
carried by a gRPC status error, if the error is one. -/
def httpgrpc.HTTPResponseFromError : GoError → Option httpgrpc.HTTPResponse
  | .httpgrpc _ resp => some resp
  | _ => none

/-! ## `net/textproto` and `net/http`: header map, response writer, `http.Error` -/

namespace textproto

/-- The function `validHeaderFieldByte`: the RFC 7230 token characters
(the table `isTokenTable`). -/
def validHeaderFieldByte (b : UInt8) : Bool :=
  b == 33 || (35 ≤ b && b ≤ 39) || b == 42 || b == 43 || b == 45 || b == 46 ||
    (48 ≤ b && b ≤ 57) || (65 ≤ b && b ≤ 90) || (94 ≤ b && b ≤ 122) || b == 124 || b == 126

/-- The second loop of `canonicalMIMEHeaderKey`: upper-case the first letter
and every letter after a dash, lower-case the others. -/
def canonicalize : Bool → List UInt8 → List UInt8
  | _, [] => []
  | upper, c :: rest =>
    let c1 : UInt8 :=
      if upper && 97 ≤ c && c ≤ 122 then c - 32
      else if !upper && 65 ≤ c && c ≤ 90 then c + 32
      else c
    c1 :: canonicalize (c1 == 45) rest

/-- The function `canonicalMIMEHeaderKey`: a key with a byte that is no token
character is returned unchanged. -/
def canonicalMIMEHeaderKey (a : List UInt8) : GoString :=
  if a.all validHeaderFieldByte then canonicalize true a else a

/-- The quick check at the head of `CanonicalMIMEHeaderKey`. -/
def quickCheck (s : GoString) : Bool → List UInt8 → GoString
  | _, [] => s
  | upper, c :: rest =>
    if !validHeaderFieldByte c then s
    else if upper && 97 ≤ c && c ≤ 122 then canonicalMIMEHeaderKey s
    else if !upper && 65 ≤ c && c ≤ 90 then canonicalMIMEHeaderKey s
    else quickCheck s (c == 45) rest

/-- The function `textproto.CanonicalMIMEHeaderKey`. -/
def CanonicalMIMEHeaderKey (s : GoString) : GoString := quickCheck s true s

end textproto

/-- The value of a run-time panic that the modelled code can raise: an index
out of range, a nil pointer dereference, or the `invalid WriteHeader code`
panic of `net/http`. -/
inductive Panic where
  | indexOutOfRange (index length : Nat)
  | nilDereference
  | invalidWriteHeaderCode (code : Int)
deriving DecidableEq

/-- How a call ended: it returned, or it panicked. -/
inductive Outcome where
  | returned
  | panicked (p : Panic)
deriving DecidableEq

/-- The map `http.Header`: a missing key has no values. -/
structure http.Header where
  values : GoString → List GoString

namespace http.Header

/-- The method `Header.Add`: append a value under the canonical key. -/
def Add (h : http.Header) (key value : GoString) : http.Header :=
  let k := textproto.CanonicalMIMEHeaderKey key
  ⟨fun x => if x = k then h.values x ++ [value] else h.values x⟩

/-- The method `Header.Set`: replace the values under the canonical key. -/
def Set (h : http.Header) (key value : GoString) : http.Header :=
  let k := textproto.CanonicalMIMEHeaderKey key
  ⟨fun x => if x = k then [value] else h.values x⟩

/-- The method `Header.Del`: delete the values under the canonical key. -/
def Del (h : http.Header) (key : GoString) : http.Header :=
  let k := textproto.CanonicalMIMEHeaderKey key
  ⟨fun x => if x = k then [] else h.values x⟩

/-- The method `Header.Values`: the values under the canonical key. -/
def Values (h : http.Header) (key : GoString) : List GoString :=
  h.values (textproto.CanonicalMIMEHeaderKey key)

end http.Header

/-- What has been written to an `http.ResponseWriter`: its header map, the
status code of the first `WriteHeader` (`none` while no header has been
written) and the body bytes. -/
structure http.ResponseWriter where
  Header : http.Header
  Code : Option Int
  Body : List UInt8

namespace http

/-- A response writer to which nothing has been written. -/
def NewRecorder : http.ResponseWriter := ⟨⟨fun _ => []⟩, none, []⟩

def StatusOK : Int := 200
def StatusUnauthorized : Int := 401
def StatusInternalServerError : Int := 500
def MethodGet : GoString := str "GET"

/-- The part of the Go release that the modelled behaviour depends on:
from Go 1.23 on, `http.Error` deletes the `Content-Length` header before it
sets its own headers; earlier releases do not. -/
structure Toolchain where
  errorDeletesContentLength : Bool
deriving DecidableEq

/-- The function `checkWriteHeaderCode` of `net/http`: a status code must
have three digits. -/
def validWriteHeaderCode (code : Int) : Bool := decide (100 ≤ code) && decide (code ≤ 999)

/-- The method `WriteHeader` of the response writer of `net/http`: once a
header is written a later call is superfluous and ignored; otherwise a code
below 100 or above 999 panics with `invalid WriteHeader code`, and any other
code becomes the status of the response. -/
def ResponseWriter.WriteHeader (w : http.ResponseWriter) (code : Int) :
    Outcome × http.ResponseWriter :=
  match w.Code with
  | some _ => (.returned, w)
  | none =>
    if validWriteHeaderCode code then (.returned, { w with Code := some code })
    else (.panicked (.invalidWriteHeaderCode code), w)

/-- The method `Write`: an implicit `WriteHeader(200)` if no header was
written yet, then the bytes are appended to the body. -/
def ResponseWriter.Write (w : http.ResponseWriter) (b : List UInt8) : http.ResponseWriter :=
  let w1 := (w.WriteHeader StatusOK).2
  { w1 with Body := w1.Body ++ b }

/-- The function `http.Error`: delete `Content-Length` (Go 1.23 and later),
set `Content-Type` and `X-Content-Type-Options`, write the header with
`code`, which panics on an invalid code, then `fmt.Fprintln(w, error)`,
which writes the text followed by a newline. -/
def Error (tc : Toolchain) (w : http.ResponseWriter) (error : GoString) (code : Int) :
    Outcome × http.ResponseWriter :=
  let h := w.Header
  let h := if tc.errorDeletesContentLength then h.Del (str "Content-Length") else h
  let h := h.Set (str "Content-Type") (str "text/plain; charset=utf-8")
  let h := h.Set (str "X-Content-Type-Options") (str "nosniff")
  let w : http.ResponseWriter := { w with Header := h }
  match w.WriteHeader code with
  | (.panicked p, w1) => (.panicked p, w1)
  | (.returned, w1) => (.returned, w1.Write (error ++ [10]))

/-- The inbound `*http.Request`, as far as the distributor reads it.
`Body` is `none` for a nil body and otherwise the result of
`ioutil.ReadAll(r.Body)`; `TenantID` is the result of
`tenant.TenantID(r.Context())`; `CtxErr` is `r.Context().Err()` once the
context is done; `Header` lists the header map in iteration order. -/
structure Request where
  Method : GoString
  RequestURI : GoString
  Header : List (GoString × List GoString)
  Body : Option (Except GoError (List UInt8))
  TenantID : Except GoError GoString
  CtxErr : GoError

end http


/-! ## The distributor: dependencies, effects and mutable state -/

/-- The interface `ring.ReadRing`, as far as the distributor uses it:
`Get(key, RingOp, nil, nil, nil)` and `ReplicationFactor()`.  The health
filter `RingOp` is applied inside the ring. -/
structure ring.ReadRing where
  Get : Nat → Except GoError ring.ReplicationSet
  ReplicationFactor : Nat

/-- The interface `AlertmanagerClient`: the unary call and the remote address
used in diagnostics. -/
structure AlertmanagerClient where
  HandleRequest : alertmanagerpb.Request → Except GoError alertmanagerpb.Response
  RemoteAddress : GoString

/-- The interface `AlertmanagerClientsPool`. -/
structure AlertmanagerClientsPool where
  GetClientFor : GoString → Except GoError AlertmanagerClient

/-- The immutable fields of the struct `Distributor`. -/
structure Distributor where
  alertmanagerRing : ring.ReadRing
  alertmanagerClientsPool : AlertmanagerClientsPool

/-- One effect of the distributor on its surroundings: an operation on the
wait group `requestsInFlight`, an increment of a counter vector at a label,
a query of the ring, a lookup in the clients pool, a unary call through the
client obtained for an address, or an error-level log line. -/
inductive Event where
  | requestsInFlightAdd (delta : Int)
  | requestsInFlightDone
  | receivedRequestsInc (user : GoString)
  | amSendsInc (addr : GoString)
  | amSendFailuresInc (addr : GoString)
  | ringGet (key : Nat)
  | getClientFor (addr : GoString)
  | handleRequest (addr : GoString) (req : alertmanagerpb.Request)
  | logError (msg : GoString)
deriving DecidableEq

/-- The mutable fields of the struct `Distributor`: the wait group counter
and the three counter vectors, indexed by label value. -/
structure Counters where
  requestsInFlight : Int
  receivedRequests : GoString → Nat
  amSends : GoString → Nat
  amSendFailures : GoString → Nat

/-- The effect of one event on the mutable fields. -/
def Counters.step (c : Counters) : Event → Counters
  | .requestsInFlightAdd delta => { c with requestsInFlight := c.requestsInFlight + delta }
  | .requestsInFlightDone => { c with requestsInFlight := c.requestsInFlight - 1 }
  | .receivedRequestsInc user =>
    { c with receivedRequests := fun x => if x = user then c.receivedRequests x + 1 else c.receivedRequests x }
  | .amSendsInc addr =>
    { c with amSends := fun x => if x = addr then c.amSends x + 1 else c.amSends x }
  | .amSendFailuresInc addr =>
    { c with amSendFailures := fun x => if x = addr then c.amSendFailures x + 1 else c.amSendFailures x }
  | _ => c

/-- The mutable fields after a sequence of events. -/
def Counters.run (c : Counters) (events : List Event) : Counters :=
  events.foldl Counters.step c

/-- The addresses looked up in the clients pool, in order: one lookup opens
every `doRequest`. -/
def poolLookups : List Event → List GoString
  | [] => []
  | .getClientFor addr :: rest => addr :: poolLookups rest
  | _ :: rest => poolLookups rest

/-- The addresses to which a unary call was issued, in order. -/
def unaryCalls : List Event → List GoString
  | [] => []
  | .handleRequest addr _ :: rest => addr :: unaryCalls rest
  | _ :: rest => unaryCalls rest

/-- The keys with which the ring was queried, in order. -/
def ringQueries : List Event → List Nat
  | [] => []
  | .ringGet key :: rest => key :: ringQueries rest
  | _ :: rest => ringQueries rest

/-- Is the event an operation on the wait group? -/
def Event.isInFlight : Event → Bool
  | .requestsInFlightAdd _ => true
  | .requestsInFlightDone => true
  | _ => false

/-! ## The code of `distributor.go` -/

/-- The function `httpTogrpchttpHeaders`: one `httpgrpc.Header` per map entry. -/
def httpTogrpchttpHeaders (hs : List (GoString × List GoString)) : List httpgrpc.Header :=
  hs.map fun kv => { Key := kv.1, Values := kv.2 }

/-- The method `Distributor.doRequest`: get the client for the address from
the pool and issue the unary call; either failure comes back wrapped. -/
def Distributor.doRequest (d : Distributor) (am : ring.IngesterDesc) (r : http.Request)
    (requestBody : List UInt8) : Except GoError alertmanagerpb.Response × List Event :=
  match d.alertmanagerClientsPool.GetClientFor am.Addr with
  | .error err =>
    (.error (errors.Wrapf err (str "failed to get alertmanager from pool " ++ am.Addr)),
      [.getClientFor am.Addr])
  | .ok amClient =>
    let req : alertmanagerpb.Request :=
      { HttpRequest :=
          { Method := r.Method
            Url := r.RequestURI
            Body := requestBody
            Headers := httpTogrpchttpHeaders r.Header } }
    match amClient.HandleRequest req with
    | .error err =>
      (.error (errors.Wrapf err (str "failed to proxy request to alertmanager " ++ amClient.RemoteAddress)),
        [.getClientFor am.Addr, .handleRequest am.Addr req])
    | .ok resp => (.ok resp, [.getClientFor am.Addr, .handleRequest am.Addr req])

/-- The method `Distributor.respondFromError`: replay the structured response
carried by the cause of the error, or answer 500 with the error text. -/
def respondFromError (tc : http.Toolchain) (err : GoError) (w : http.ResponseWriter) :
    Outcome × http.ResponseWriter :=
  match httpgrpc.HTTPResponseFromError (errors.Cause err) with
  | none => http.Error tc w err.Error http.StatusInternalServerError
  | some httpResp =>
    let w := httpResp.Headers.foldl
      (fun w h => h.Values.foldl (fun w v => { w with Header := w.Header.Add h.Key v }) w) w
    http.Error tc w httpResp.Body httpResp.Code

/-- The result of `ioutil.ReadAll(r.Body)` behind the guard `r.Body != nil`:
a nil body leaves `body` nil. -/
def readBody (r : http.Request) : Except GoError (List UInt8) :=
  match r.Body with
  | none => .ok []
  | some res => res

/-- The method `Distributor.doRead`: query the ring, take the replica at index
0 of the set, read the body, issue one request and relay its result. -/
def Distributor.doRead (d : Distributor) (tc : http.Toolchain) (userID : GoString)
    (w : http.ResponseWriter) (r : http.Request) : Outcome × http.ResponseWriter × List Event :=
  let key := shardByUser userID
  match d.alertmanagerRing.Get key with
  | .error _ =>
    ((w.WriteHeader http.StatusInternalServerError).1, (w.WriteHeader http.StatusInternalServerError).2,
      [.ringGet key, .logError (str "failed to get replication set from the ring")])
  | .ok replicationSet =>
    match replicationSet.Ingesters[0]? with
    | none => (.panicked (.indexOutOfRange 0 replicationSet.Ingesters.length), w, [.ringGet key])
    | some amDesc =>
      match readBody r with
      | .error _ =>
        ((w.WriteHeader http.StatusInternalServerError).1,
          (w.WriteHeader http.StatusInternalServerError).2,
          [.ringGet key, .logError (str "failed to read the request body during reads")])
      | .ok body =>
        let (res, events) := d.doRequest amDesc r body
        match res with
        | .error err =>
          ((respondFromError tc err w).1, (respondFromError tc err w).2,
            [.ringGet key, .amSendsInc amDesc.Addr] ++ events ++ [.amSendFailuresInc amDesc.Addr])
        | .ok resp =>
          if resp.GetStatus ≠ .OK then
            ((http.Error tc w resp.Error http.StatusInternalServerError).1,
              (http.Error tc w resp.Error http.StatusInternalServerError).2,
              [.ringGet key, .amSendsInc amDesc.Addr] ++ events)
          else
            match resp.HttpResponse with
            | none =>
              (.panicked .nilDereference, w, [.ringGet key, .amSendsInc amDesc.Addr] ++ events)
            | some httpResponse =>
              ((http.Error tc w httpResponse.Body httpResponse.Code).1,
                (http.Error tc w httpResponse.Body httpResponse.Code).2,
                [.ringGet key, .amSendsInc amDesc.Addr] ++ events)

/-- The function literal that `doWrite` hands to `ring.DoBatch`: count the
send, issue the request, count a failed `doRequest`, and report an error for
it or for a response whose status is not OK. -/
def Distributor.doWriteCallback (d : Distributor) (r : http.Request) (body : List UInt8)
    (am : ring.IngesterDesc) : Option GoError × List Event :=
  let (res, events) := d.doRequest am r body
  match res with
  | .error err => (some err, [.amSendsInc am.Addr] ++ events ++ [.amSendFailuresInc am.Addr])
  | .ok resp =>
    if resp.GetStatus ≠ .OK then
      (some (errors.New (str "alertmanager grpc request not ok")), [.amSendsInc am.Addr] ++ events)
    else
      (none, [.amSendsInc am.Addr] ++ events)

/-- Modelled from the spec: the quorum resolution inside `ring.DoBatch`
(package `pkg/ring`, which is not among the sources).  The results of the
per-replica calls are taken in completion order; `succeeded` and `failed`
count the results already seen.  The batch succeeds once `minSuccess` calls
have succeeded, and fails, with the error that tips the count, once so many
of the `n` replicas have failed that `minSuccess` successes are out of
reach; `none` says that neither has happened. -/
def ring.quorum (minSuccess n : Nat) : List (Option GoError) → Nat → Nat → Option (Option GoError)
  | [], _, _ => none
  | none :: rest, succeeded, failed =>
    if minSuccess ≤ succeeded + 1 then some none
    else ring.quorum minSuccess n rest (succeeded + 1) failed
  | some err :: rest, succeeded, failed =>
    if n < minSuccess + (failed + 1) then some (some err)
    else ring.quorum minSuccess n rest succeeded (failed + 1)

/-- Modelled from the spec: the function `ring.DoBatch` (package `pkg/ring`,
which is not among the sources) for a single key.  It asks the ring for the
replica set of the key, invokes the callback once per replica of the set and
aggregates the outcomes by the majority-of-replication-factor rule
(`minSuccess = ⌊R/2⌋ + 1`).  The per-replica calls are laid out one after
the other in the order of the set, and every one of them runs to completion,
also after the outcome is decided.  A batch that can reach neither outcome
(a set too small to hold a majority, with no failure) ends with the error
of the context.  The cleanup function the distributor passes does nothing. -/
def ring.DoBatch (ctxErr : GoError) (r : ring.ReadRing) (key : Nat)
    (callback : ring.IngesterDesc → Option GoError × List Event) : Option GoError × List Event :=
  match r.Get key with
  | .error err => (some err, [.ringGet key])
  | .ok replicationSet =>
    let results := replicationSet.Ingesters.map callback
    let decided := ring.quorum (r.ReplicationFactor / 2 + 1) replicationSet.Ingesters.length
      (results.map Prod.fst) 0 0
    (decided.getD (some ctxErr), .ringGet key :: (results.map Prod.snd).flatten)

/-- The method `Distributor.doWrite`: read the body, fan the request out to
the replicas through `ring.DoBatch`, and answer 200 when the batch returns
no error and through `respondFromError` otherwise. -/
def Distributor.doWrite (d : Distributor) (tc : http.Toolchain) (userID : GoString)
    (w : http.ResponseWriter) (r : http.Request) : Outcome × http.ResponseWriter × List Event :=
  match readBody r with
  | .error _ =>
    ((w.WriteHeader http.StatusInternalServerError).1, (w.WriteHeader http.StatusInternalServerError).2,
      [.logError (str "failed to read the request body during write")])
  | .ok body =>
    let (err, events) :=
      ring.DoBatch r.CtxErr d.alertmanagerRing (shardByUser userID) (d.doWriteCallback r body)
    match err with
    | none => ((w.WriteHeader http.StatusOK).1, (w.WriteHeader http.StatusOK).2, events)
    | some err => ((respondFromError tc err w).1, (respondFromError tc err w).2, events)

/-- The body of `Distributor.DistributeRequest` between the registration
with the wait group and the deferred deregistration. -/
def Distributor.distribute (d : Distributor) (tc : http.Toolchain) (w : http.ResponseWriter)
    (r : http.Request) : Outcome × http.ResponseWriter × List Event :=
  match r.TenantID with
  | .error err =>
    ((http.Error tc w err.Error http.StatusUnauthorized).1,
      (http.Error tc w err.Error http.StatusUnauthorized).2, [])
  | .ok userID =>
    if r.Method = http.MethodGet then
      let (outcome, w1, events) := d.doRead tc userID w r
      (outcome, w1, .receivedRequestsInc userID :: events)
    else
      let (outcome, w1, events) := d.doWrite tc userID w r
      (outcome, w1, .receivedRequestsInc userID :: events)

/-- The method `Distributor.DistributeRequest`: `requestsInFlight.Add(1)`,
the body, and the deferred `requestsInFlight.Done()`, which also runs when
the body panics. -/
def Distributor.DistributeRequest (d : Distributor) (tc : http.Toolchain)
    (w : http.ResponseWriter) (r : http.Request) : Outcome × http.ResponseWriter × List Event :=
  let (outcome, w1, events) := d.distribute tc w r
  (outcome, w1, [.requestsInFlightAdd 1] ++ events ++ [.requestsInFlightDone])

/-- Modelled from the spec: the replica directory `*ring.Ring` (package
`pkg/ring`, which is not among the sources).  For a shard key the ring
knows the instances that own the key, in ring order, and it has a
replication factor `R`. -/
structure ring.Ring where
  ReplicationFactor : Nat
  instances : Nat → List ring.IngesterDesc

/-- Modelled from the spec: the method `(*ring.Ring).Get` (package `pkg/ring`,
which is not among the sources) under the health filter `RingOp`.  The
spec has the directory answer either with a replica set or with an error
(no replica set obtainable for the shard key).  Only instances that are
eligible to serve, those in state ACTIVE, enter the set, an ineligible
instance being replaced by the next one in ring order; the set has `R`
replicas, or fewer when the ring has no more.  No replica set is obtainable
when the eligible instances cannot hold the majority `⌊R/2⌋ + 1` of the
quorum rule, in particular when there is none. -/
def ring.Ring.Get (r : ring.Ring) (key : Nat) : Except GoError ring.ReplicationSet :=
  let eligible := ((r.instances key).filter fun am => am.State = .ACTIVE).take r.ReplicationFactor
  if eligible.length < r.ReplicationFactor / 2 + 1 then
    .error (errors.New (str "too few live replicas"))
  else
    .ok { Ingesters := eligible, MaxErrors := eligible.length - (r.ReplicationFactor / 2 + 1) }

/-- The constructor `New`, for a non-nil clients pool: the distributor reads
the ring it is given, a `*ring.Ring`, through the interface `ring.ReadRing`. -/
def New (alertmanagersRing : ring.Ring) (alertmanagerClientsPool : AlertmanagerClientsPool) :
    Distributor :=
  { alertmanagerRing :=
      { Get := alertmanagersRing.Get, ReplicationFactor := alertmanagersRing.ReplicationFactor }
    alertmanagerClientsPool := alertmanagerClientsPool }

/-! ## Vocabulary of the properties and concrete inputs -/

/-- The values that a list of `httpgrpc.Header`s holds for a key, in order:
the values of every entry whose key has the same canonical form. -/
def headerValues (hs : List httpgrpc.Header) (key : GoString) : List GoString :=
  ((hs.filter fun h =>
      textproto.CanonicalMIMEHeaderKey h.Key = textproto.CanonicalMIMEHeaderKey key).map
    fun h => h.Values).flatten

/-- The response `w1` is the structured response `resp` relayed unchanged:
its status code is that of `resp`, its body is the body of `resp`, and for
every header key of `resp` its values are exactly those of `resp`, in order. -/
def RelayedUnchanged (resp : httpgrpc.HTTPResponse) (w1 : http.ResponseWriter) : Prop :=
  w1.Code = some resp.Code ∧ w1.Body = resp.Body ∧
    ∀ h ∈ resp.Headers, w1.Header.Values h.Key = headerValues resp.Headers h.Key

/-- The result `res` of a call is the structured response `resp` relayed
through `http.Error` on top of `w`: the call returned, the status code is
that of `resp`, the body is the body of `resp` followed by a newline, and
for every key other than those that `http.Error` sets or deletes, the values
of `resp` are appended, in order, to those `w` held. -/
def RelayedByError (tc : http.Toolchain) (resp : httpgrpc.HTTPResponse) (w : http.ResponseWriter)
    (res : Outcome × http.ResponseWriter) : Prop :=
  res.1 = .returned ∧ res.2.Code = some resp.Code ∧ res.2.Body = w.Body ++ resp.Body ++ [10] ∧
    ∀ key : GoString,
      textproto.CanonicalMIMEHeaderKey key ≠ str "Content-Type" →
      textproto.CanonicalMIMEHeaderKey key ≠ str "X-Content-Type-Options" →
      (tc.errorDeletesContentLength = true →
        textproto.CanonicalMIMEHeaderKey key ≠ str "Content-Length") →
      res.2.Header.Values key = w.Header.Values key ++ headerValues resp.Headers key

namespace fixture

/-- A structured backend error response: 429 with `Retry-After: 5`. -/
def rateLimited : httpgrpc.HTTPResponse :=
  { Code := 429, Headers := [⟨str "Retry-After", [str "5"]⟩], Body := str "rate limited" }

/-- A Go release before 1.23. -/
def go115 : http.Toolchain := { errorDeletesContentLength := false }

/-- A Go release from 1.23 on. -/
def go123 : http.Toolchain := { errorDeletesContentLength := true }

/-- A structured backend error response whose code has two digits. -/
def code99 : httpgrpc.HTTPResponse :=
  { Code := 99, Headers := [], Body := str "odd" }

/-- A structured backend error response that carries a content length. -/
def withContentLength : httpgrpc.HTTPResponse :=
  { Code := 429, Headers := [⟨str "Content-Length", [str "12"]⟩], Body := str "rate limited" }

/-- A structured backend error response that carries a JSON content type. -/
def badRequestJSON : httpgrpc.HTTPResponse :=
  { Code := 400, Headers := [⟨str "Content-Type", [str "application/json"]⟩], Body := str "[]" }

/-- A gRPC status error that carries `resp`. -/
def statusErr (resp : httpgrpc.HTTPResponse) : GoError :=
  .httpgrpc (str "rpc error: " ++ resp.Body) resp

/-- A client that answers every call with `reply`. -/
def client (addr : GoString) (reply : Except GoError alertmanagerpb.Response) : AlertmanagerClient :=
  { HandleRequest := fun _ => reply, RemoteAddress := addr }

/-- An active replica at `addr`. -/
def replica (addr : String) : ring.IngesterDesc := { Addr := str addr, State := .ACTIVE }

/-- A successful backend reply: status OK with an embedded 200 response. -/
def okReply : Except GoError alertmanagerpb.Response :=
  .ok { Status := .OK, HttpResponse := some { Code := 200, Headers := [], Body := str "[]" }, Error := [] }

/-- A backend reply with status OK whose embedded response has the code 0. -/
def zeroCodeReply : Except GoError alertmanagerpb.Response :=
  .ok { Status := .OK, HttpResponse := some { Code := 0, Headers := [], Body := str "[]" }, Error := [] }

/-- A declared failure: status ERROR with an error string. -/
def errorReply : Except GoError alertmanagerpb.Response :=
  .ok { Status := .ERROR, HttpResponse := none, Error := str "boom" }

/-- A transport failure that carries the rate-limited response. -/
def transportFailure : Except GoError alertmanagerpb.Response :=
  .error (statusErr rateLimited)

/-- A distributor built by `New` on a ring with replication factor `R` that
knows the given instances for every key, and on a pool whose client for an
address answers with `backend addr`. -/
def distributor (R : Nat) (instances : List ring.IngesterDesc)
    (backend : GoString → Except GoError alertmanagerpb.Response) : Distributor :=
  New { ReplicationFactor := R, instances := fun _ => instances }
    { GetClientFor := fun addr => .ok (client addr (backend addr)) }

/-- The replica set `[am-a, am-b, am-c]`. -/
def abc : List ring.IngesterDesc := [replica "am-a", replica "am-b", replica "am-c"]

/-- A backend where the replicas at the listed addresses fail at the
transport layer and every other replica answers OK. -/
def backend (failing : List GoString) (addr : GoString) : Except GoError alertmanagerpb.Response :=
  if addr ∈ failing then transportFailure else okReply

/-- A request of tenant `tenant-1` with the given method and no body. -/
def request (method : String) : http.Request :=
  { Method := str method
    RequestURI := str "/api/v1/alerts"
    Header := []
    Body := none
    TenantID := .ok (str "tenant-1")
    CtxErr := .plain (str "context canceled") }

/-- A pool whose client for every address answers OK. -/
def okPool : AlertmanagerClientsPool :=
  { GetClientFor := fun addr => .ok (client addr okReply) }

/-- A ring with replication factor 3 that knows the given instances for
every key. -/
def ring3 (instances : List ring.IngesterDesc) : ring.Ring :=
  { ReplicationFactor := 3, instances := fun _ => instances }

/-- Counters that are all zero. -/
def zero : Counters :=
  { requestsInFlight := 0, receivedRequests := fun _ => 0, amSends := fun _ => 0,
    amSendFailures := fun _ => 0 }

end fixture

/-! # Properties -/

/-! ## Shard router -/

theorem fnv_write_eq_fnv1aFrom (h : Nat) (data : List UInt8) :
    fnv.Write h data = fnv1aFrom h data := by
  induction data generalizing h with
  | nil => rfl
  | cons b bs ih =>
    simp only [fnv.Write, List.foldl_cons, fnv1aFrom, fnv.prime32] at ih ⊢
    exact ih _

theorem fnv_write_lt (h : Nat) (data : List UInt8) (hh : h < 2 ^ 32) :
    fnv.Write h data < 2 ^ 32 := by
  induction data generalizing h with
  | nil => simpa [fnv.Write] using hh
  | cons b bs ih =>
    simp only [fnv.Write, List.foldl_cons] at ih ⊢
    exact ih _ (Nat.mod_lt _ (by norm_num))

theorem fnv_write_append (h : Nat) (data : List UInt8) (b : UInt8) :
    fnv.Write h (data ++ [b]) = ((fnv.Write h data ^^^ b.toNat) * 16777619) % 2 ^ 32 := by
  simp [fnv.Write, List.foldl_append, fnv.prime32]

/-- Claim C1: for every tenant ID `t`, `shardByUser t` is the 32-bit FNV-1a
hash of the bytes of `t`: it is the offset basis 2166136261 folded over the
bytes in order by `h := ((h XOR byte) * 16777619) mod 2^32`; the hash of the
empty string is the offset basis, appending a byte performs one more such
step, and the value is a 32-bit number.  Being a function of `t` alone, it
returns the same value at every call. -/
theorem shardByUser_is_fnv1a (t : GoString) :
    shardByUser t = fnv1aFrom 2166136261 t ∧
    shardByUser [] = 2166136261 ∧
    (∀ b : UInt8, shardByUser (t ++ [b]) = ((shardByUser t ^^^ b.toNat) * 16777619) % 2 ^ 32) ∧
    shardByUser t < 2 ^ 32 := by
  refine ⟨?_, rfl, ?_, ?_⟩
  · exact fnv_write_eq_fnv1aFrom _ t
  · intro b
    exact fnv_write_append _ t b
  · exact fnv_write_lt _ t (by norm_num [fnv.New32a, fnv.offset32])

/-! ## Admission gate -/

theorem hasSuffix_iff (s suffix : GoString) :
    strings.HasSuffix s suffix = true ↔ ∃ pre : GoString, s = pre ++ suffix := by
  unfold strings.HasSuffix
  constructor
  · intro h
    simp only [Bool.and_eq_true, decide_eq_true_eq, beq_iff_eq] at h
    refine ⟨s.take (s.length - suffix.length), ?_⟩
    have := List.take_append_drop (s.length - suffix.length) s
    rw [h.2] at this
    exact this.symm
  · rintro ⟨pre, rfl⟩
    simp

/-- Claim C6: for every path `p`, `IsPathSupported p` is true if and only if
`p` ends with the exact byte sequence `/alerts` or with the exact byte
sequence `/alerts/groups`; in particular `/Alerts`, `/alerts/`,
`/alerts/groups/x` and `alerts` are rejected. -/
theorem IsPathSupported_iff_suffix :
    (∀ p : GoString, IsPathSupported p = true ↔
      ((∃ pre : GoString, p = pre ++ str "/alerts") ∨
        (∃ pre : GoString, p = pre ++ str "/alerts/groups"))) ∧
    IsPathSupported (str "/Alerts") = false ∧
    IsPathSupported (str "/alerts/") = false ∧
    IsPathSupported (str "/alerts/groups/x") = false ∧
    IsPathSupported (str "alerts") = false ∧
    IsPathSupported (str "/api/v1/alerts") = true ∧
    IsPathSupported (str "/api/v1/alerts/groups") = true := by
  refine ⟨?_, by decide, by decide, by decide, by decide, by decide, by decide⟩
  intro p
  unfold IsPathSupported
  rw [Bool.or_eq_true, hasSuffix_iff, hasSuffix_iff]

/-! ## Response translator -/

theorem WriteHeader_valid (w : http.ResponseWriter) (code : Int) (hw : w.Code = none)
    (h1 : 100 ≤ code) (h2 : code ≤ 999) :
    w.WriteHeader code = (.returned, { w with Code := some code }) := by
  simp [http.ResponseWriter.WriteHeader, hw, http.validWriteHeaderCode, h1, h2]

theorem http_Error_valid (tc : http.Toolchain) (w : http.ResponseWriter) (error : GoString)
    (code : Int) (hw : w.Code = none) (h1 : 100 ≤ code) (h2 : code ≤ 999) :
    (http.Error tc w error code).1 = .returned ∧
    (http.Error tc w error code).2.Code = some code ∧
    (http.Error tc w error code).2.Body = w.Body ++ error ++ [10] := by
  have hv : http.validWriteHeaderCode code = true := by
    simp [http.validWriteHeaderCode, h1, h2]
  unfold http.Error http.ResponseWriter.WriteHeader
  simp [hw, hv, http.ResponseWriter.Write, http.ResponseWriter.WriteHeader]

theorem http_Error_not_bare (tc : http.Toolchain) (w : http.ResponseWriter) (error : GoString)
    (code : Int) :
    ¬ ((http.Error tc w error code).2.Code = some 200 ∧
      (http.Error tc w error code).2.Body = w.Body) := by
  unfold http.Error http.ResponseWriter.WriteHeader
  cases hc : w.Code with
  | some c => simp [hc, http.ResponseWriter.Write, http.ResponseWriter.WriteHeader]
  | none =>
    by_cases hv : http.validWriteHeaderCode code = true
    · simp [hc, hv, http.ResponseWriter.Write, http.ResponseWriter.WriteHeader]
    · simp [hc, hv]

theorem canonical_contentType :
    textproto.CanonicalMIMEHeaderKey (str "Content-Type") = str "Content-Type" := by decide

theorem canonical_contentTypeOptions :
    textproto.CanonicalMIMEHeaderKey (str "X-Content-Type-Options") = str "X-Content-Type-Options" := by
  decide

theorem canonical_contentLength :
    textproto.CanonicalMIMEHeaderKey (str "Content-Length") = str "Content-Length" := by decide

theorem http_Error_values (tc : http.Toolchain) (w : http.ResponseWriter) (error : GoString)
    (code : Int) (x : GoString)
    (h1 : x ≠ str "Content-Type") (h2 : x ≠ str "X-Content-Type-Options")
    (h3 : tc.errorDeletesContentLength = true → x ≠ str "Content-Length") :
    (http.Error tc w error code).2.Header.values x = w.Header.values x := by
  have hdr : (((if tc.errorDeletesContentLength = true then w.Header.Del (str "Content-Length")
      else w.Header).Set (str "Content-Type") (str "text/plain; charset=utf-8")).Set
        (str "X-Content-Type-Options") (str "nosniff")).values x = w.Header.values x := by
    by_cases hd : tc.errorDeletesContentLength = true
    · simp [hd, http.Header.Set, http.Header.Del, canonical_contentType,
        canonical_contentTypeOptions, canonical_contentLength, h1, h2, h3 hd]
    · simp [hd, http.Header.Set, canonical_contentType, canonical_contentTypeOptions, h1, h2]
  unfold http.Error http.ResponseWriter.WriteHeader
  cases hc : w.Code with
  | some c => simpa [hc, http.ResponseWriter.Write, http.ResponseWriter.WriteHeader] using hdr
  | none =>
    by_cases hv : http.validWriteHeaderCode code = true
    · simpa [hc, hv, http.ResponseWriter.Write, http.ResponseWriter.WriteHeader] using hdr
    · simpa [hc, hv] using hdr

theorem addValues_fold (k : GoString) (vs : List GoString) (w : http.ResponseWriter) :
    let w1 := vs.foldl (fun w v => { w with Header := w.Header.Add k v }) w
    w1.Code = w.Code ∧ w1.Body = w.Body ∧
      ∀ x, w1.Header.values x =
        if x = textproto.CanonicalMIMEHeaderKey k then w.Header.values x ++ vs else w.Header.values x := by
  induction vs generalizing w with
  | nil => simp
  | cons v vs ih =>
    obtain ⟨h1, h2, h3⟩ := ih { w with Header := w.Header.Add k v }
    refine ⟨h1, h2, ?_⟩
    intro x
    simp only [List.foldl_cons]
    rw [h3 x]
    by_cases hx : x = textproto.CanonicalMIMEHeaderKey k <;> simp [http.Header.Add, hx]

theorem addHeaders_fold (hs : List httpgrpc.Header) (w : http.ResponseWriter) :
    let w1 := hs.foldl
      (fun w h => h.Values.foldl (fun w v => { w with Header := w.Header.Add h.Key v }) w) w
    w1.Code = w.Code ∧ w1.Body = w.Body ∧
      ∀ x, w1.Header.values x = w.Header.values x ++
        ((hs.filter fun h => textproto.CanonicalMIMEHeaderKey h.Key = x).map fun h => h.Values).flatten := by
  induction hs generalizing w with
  | nil => simp
  | cons h hs ih =>
    obtain ⟨a1, a2, a3⟩ := addValues_fold h.Key h.Values w
    obtain ⟨h1, h2, h3⟩ := ih (h.Values.foldl (fun w v => { w with Header := w.Header.Add h.Key v }) w)
    refine ⟨h1.trans a1, h2.trans a2, ?_⟩
    intro x
    simp only [List.foldl_cons]
    rw [h3 x, a3 x]
    by_cases hx : textproto.CanonicalMIMEHeaderKey h.Key = x
    · subst hx
      simp [List.filter_cons]
    · have hx2 : ¬ x = textproto.CanonicalMIMEHeaderKey h.Key := fun e => hx e.symm
      simp [List.filter_cons, hx, hx2]

theorem respondFromError_relayed (tc : http.Toolchain) (err : GoError) (w : http.ResponseWriter)
    (resp : httpgrpc.HTTPResponse)
    (hcause : httpgrpc.HTTPResponseFromError (errors.Cause err) = some resp)
    (hw : w.Code = none) (h1 : 100 ≤ resp.Code) (h2 : resp.Code ≤ 999) :
    RelayedByError tc resp w (respondFromError tc err w) := by
  unfold respondFromError
  rw [hcause]
  obtain ⟨f1, f2, f3⟩ := addHeaders_fold resp.Headers w
  obtain ⟨e1, e2, e3⟩ := http_Error_valid tc _ resp.Body resp.Code (f1.trans hw) h1 h2
  refine ⟨e1, e2, ?_, ?_⟩
  · rw [e3, f2]
  · intro key hk1 hk2 hk3
    unfold http.Header.Values
    rw [http_Error_values _ _ _ _ _ hk1 hk2 hk3, f3]
    rfl

theorem respondFromError_not_bare (tc : http.Toolchain) (err : GoError) (w : http.ResponseWriter) :
    ¬ ((respondFromError tc err w).2.Code = some 200 ∧
      (respondFromError tc err w).2.Body = w.Body) := by
  unfold respondFromError
  cases httpgrpc.HTTPResponseFromError (errors.Cause err) with
  | none => exact http_Error_not_bare tc w _ _
  | some httpResp =>
    simp only
    obtain ⟨-, f2, -⟩ := addHeaders_fold httpResp.Headers w
    have h := http_Error_not_bare tc
      (httpResp.Headers.foldl
        (fun w h => h.Values.foldl (fun w v => { w with Header := w.Header.Add h.Key v }) w) w)
      httpResp.Body httpResp.Code
    rw [f2] at h
    exact h

theorem doWrite_failure_path (d : Distributor) (tc : http.Toolchain) (userID : GoString)
    (w : http.ResponseWriter) (r : http.Request) (body : List UInt8) (err : GoError)
    (hbody : readBody r = .ok body)
    (hbatch : (ring.DoBatch r.CtxErr d.alertmanagerRing (shardByUser userID)
      (d.doWriteCallback r body)).1 = some err) :
    ((d.doWrite tc userID w r).1, (d.doWrite tc userID w r).2.1) = respondFromError tc err w := by
  unfold Distributor.doWrite
  rw [hbody]
  simp only
  rw [hbatch]

theorem doRead_failure_path (d : Distributor) (tc : http.Toolchain) (userID : GoString)
    (w : http.ResponseWriter) (r : http.Request) (replicationSet : ring.ReplicationSet)
    (amDesc : ring.IngesterDesc) (body : List UInt8) (err : GoError)
    (hget : d.alertmanagerRing.Get (shardByUser userID) = .ok replicationSet)
    (hfirst : replicationSet.Ingesters[0]? = some amDesc)
    (hbody : readBody r = .ok body)
    (hcall : (d.doRequest amDesc r body).1 = .error err) :
    ((d.doRead tc userID w r).1, (d.doRead tc userID w r).2.1) = respondFromError tc err w := by
  unfold Distributor.doRead
  simp only [hget, hfirst, hbody]
  rw [hcall]

/-- Claim C4, amended: for every error whose cause carries a structured HTTP
response (code `c` with three digits, `100 ≤ c ≤ 999`, headers `hs`, body
`b`), `respondFromError` returns and writes, to a response writer whose
header is not yet written, the status code `c` and the body `b` followed by
one newline; and for every header key whose canonical form is neither
`Content-Type` nor `X-Content-Type-Options` (nor `Content-Length` where
`http.Error` deletes it), the values under that key are the values the
writer already held followed by exactly the values of `hs` for that key, in
order.  The same holds for `doWrite` when the batch returns that error and
for `doRead` when the request to the first replica fails with it. -/
theorem respondFromError_relays_through_http_Error (tc : http.Toolchain) (err : GoError)
    (w : http.ResponseWriter) (resp : httpgrpc.HTTPResponse)
    (hcause : httpgrpc.HTTPResponseFromError (errors.Cause err) = some resp)
    (hw : w.Code = none) (hlo : 100 ≤ resp.Code) (hhi : resp.Code ≤ 999) :
    RelayedByError tc resp w (respondFromError tc err w) ∧
    (∀ (d : Distributor) (userID : GoString) (r : http.Request) (body : List UInt8),
      readBody r = .ok body →
      (ring.DoBatch r.CtxErr d.alertmanagerRing (shardByUser userID)
        (d.doWriteCallback r body)).1 = some err →
      RelayedByError tc resp w ((d.doWrite tc userID w r).1, (d.doWrite tc userID w r).2.1)) ∧
    (∀ (d : Distributor) (userID : GoString) (r : http.Request)
      (replicationSet : ring.ReplicationSet) (amDesc : ring.IngesterDesc) (body : List UInt8),
      d.alertmanagerRing.Get (shardByUser userID) = .ok replicationSet →
      replicationSet.Ingesters[0]? = some amDesc →
      readBody r = .ok body →
      (d.doRequest amDesc r body).1 = .error err →
      RelayedByError tc resp w ((d.doRead tc userID w r).1, (d.doRead tc userID w r).2.1)) := by
  have main := respondFromError_relayed tc err w resp hcause hw hlo hhi
  refine ⟨main, ?_, ?_⟩
  · intro d userID r body hbody hbatch
    rw [doWrite_failure_path d tc userID w r body err hbody hbatch]
    exact main
  · intro d userID r replicationSet amDesc body hget hfirst hbody hcall
    rw [doRead_failure_path d tc userID w r replicationSet amDesc body err hget hfirst hbody hcall]
    exact main

/-- The amended claim C4 at the input of the specification: an error that
wraps a gRPC status error carrying 429, `Retry-After: 5` and the body
`rate limited`, relayed to a fresh response writer, directly, by a write
whose three replicas all fail with it and by a read whose first replica
fails with it. -/
theorem respondFromError_relays_through_http_Error_witness :
    RelayedByError fixture.go123 fixture.rateLimited http.NewRecorder
      (respondFromError fixture.go123
        (errors.Wrapf (fixture.statusErr fixture.rateLimited)
          (str "failed to proxy request to alertmanager am-a"))
        http.NewRecorder) ∧
    RelayedByError fixture.go115 fixture.rateLimited http.NewRecorder
      (((fixture.distributor 3 fixture.abc (fun _ => fixture.transportFailure)).doWrite
          fixture.go115 (str "tenant-1") http.NewRecorder (fixture.request "POST")).1,
        ((fixture.distributor 3 fixture.abc (fun _ => fixture.transportFailure)).doWrite
          fixture.go115 (str "tenant-1") http.NewRecorder (fixture.request "POST")).2.1) ∧
    RelayedByError fixture.go115 fixture.rateLimited http.NewRecorder
      (((fixture.distributor 3 fixture.abc (fun _ => fixture.transportFailure)).doRead
          fixture.go115 (str "tenant-1") http.NewRecorder (fixture.request "GET")).1,
        ((fixture.distributor 3 fixture.abc (fun _ => fixture.transportFailure)).doRead
          fixture.go115 (str "tenant-1") http.NewRecorder (fixture.request "GET")).2.1) :=
  have h0 := respondFromError_relays_through_http_Error fixture.go123
    (errors.Wrapf (fixture.statusErr fixture.rateLimited)
      (str "failed to proxy request to alertmanager am-a"))
    http.NewRecorder fixture.rateLimited rfl rfl (by decide) (by decide)
  have h1 := respondFromError_relays_through_http_Error fixture.go115
    (errors.Wrapf (fixture.statusErr fixture.rateLimited)
      (str "failed to proxy request to alertmanager am-a"))
    http.NewRecorder fixture.rateLimited rfl rfl (by decide) (by decide)
  have h2 := respondFromError_relays_through_http_Error fixture.go115
    (errors.Wrapf (fixture.statusErr fixture.rateLimited)
      (str "failed to proxy request to alertmanager am-b"))
    http.NewRecorder fixture.rateLimited rfl rfl (by decide) (by decide)
  ⟨h0.1,
   h2.2.1 _ (str "tenant-1") (fixture.request "POST") [] rfl (by decide),
   h1.2.2 _ (str "tenant-1") (fixture.request "GET") _ (fixture.replica "am-a") [] rfl rfl rfl rfl⟩

/-- Claim C4 fails as stated.  At the input of the specification (429,
`Retry-After: 5`, body `rate limited`) the body written is `rate limited`
followed by a newline, not the body of the error.  A structured response
with `Content-Type: application/json` comes out with that value overwritten
by `text/plain; charset=utf-8`.  A structured response with the code 99 is
not relayed at all: `WriteHeader` panics and no status is written.  And
where `http.Error` deletes `Content-Length`, a relayed `Content-Length`
value is dropped. -/
theorem respondFromError_not_relayed_unchanged :
    ¬ RelayedUnchanged fixture.rateLimited
      (respondFromError fixture.go115 (fixture.statusErr fixture.rateLimited) http.NewRecorder).2 ∧
    (respondFromError fixture.go115 (fixture.statusErr fixture.rateLimited) http.NewRecorder).2.Body =
      str "rate limited" ++ [10] ∧
    ¬ RelayedUnchanged fixture.badRequestJSON
      (respondFromError fixture.go115 (fixture.statusErr fixture.badRequestJSON) http.NewRecorder).2 ∧
    (respondFromError fixture.go115 (fixture.statusErr fixture.badRequestJSON)
      http.NewRecorder).2.Header.Values (str "Content-Type") = [str "text/plain; charset=utf-8"] ∧
    (respondFromError fixture.go115 (fixture.statusErr fixture.code99) http.NewRecorder).1 =
      .panicked (.invalidWriteHeaderCode 99) ∧
    (respondFromError fixture.go115 (fixture.statusErr fixture.code99) http.NewRecorder).2.Code = none ∧
    (respondFromError fixture.go123 (fixture.statusErr fixture.withContentLength)
      http.NewRecorder).2.Header.Values (str "Content-Length") = [] := by
  refine ⟨?_, by decide, ?_, by decide, by decide, by decide, by decide⟩
  · rintro ⟨_, hb, _⟩
    revert hb
    decide
  · rintro ⟨_, _, hh⟩
    have := hh ⟨str "Content-Type", [str "application/json"]⟩ (by simp [fixture.badRequestJSON])
    revert this
    decide

/-! ## Read proxy -/

theorem doRequest_events (d : Distributor) (am : ring.IngesterDesc) (r : http.Request)
    (body : List UInt8) :
    poolLookups (d.doRequest am r body).2 = [am.Addr] ∧
    unaryCalls (d.doRequest am r body).2 =
      (match d.alertmanagerClientsPool.GetClientFor am.Addr with
        | .ok _ => [am.Addr]
        | .error _ => []) ∧
    ringQueries (d.doRequest am r body).2 = [] ∧
    (∀ e ∈ (d.doRequest am r body).2, e.isInFlight = false) ∧
    (∀ c : Counters, (c.run (d.doRequest am r body).2).requestsInFlight = c.requestsInFlight ∧
      (c.run (d.doRequest am r body).2).receivedRequests = c.receivedRequests ∧
      (c.run (d.doRequest am r body).2).amSends = c.amSends ∧
      (c.run (d.doRequest am r body).2).amSendFailures = c.amSendFailures) := by
  unfold Distributor.doRequest
  cases d.alertmanagerClientsPool.GetClientFor am.Addr with
  | error err =>
    simp [poolLookups, unaryCalls, ringQueries, Event.isInFlight, Counters.run, Counters.step]
  | ok amClient =>
    simp only
    cases amClient.HandleRequest _ <;>
      simp [poolLookups, unaryCalls, ringQueries, Event.isInFlight, Counters.run, Counters.step]

theorem poolLookups_append (a b : List Event) :
    poolLookups (a ++ b) = poolLookups a ++ poolLookups b := by
  induction a with
  | nil => rfl
  | cons e a ih => cases e <;> simp [poolLookups, ih]

theorem unaryCalls_append (a b : List Event) :
    unaryCalls (a ++ b) = unaryCalls a ++ unaryCalls b := by
  induction a with
  | nil => rfl
  | cons e a ih => cases e <;> simp [unaryCalls, ih]

theorem ringQueries_append (a b : List Event) :
    ringQueries (a ++ b) = ringQueries a ++ ringQueries b := by
  induction a with
  | nil => rfl
  | cons e a ih => cases e <;> simp [ringQueries, ih]

theorem doRead_events (d : Distributor) (tc : http.Toolchain) (userID : GoString)
    (w : http.ResponseWriter) (r : http.Request) (replicationSet : ring.ReplicationSet)
    (A : ring.IngesterDesc) (rest : List ring.IngesterDesc) (body : List UInt8)
    (hget : d.alertmanagerRing.Get (shardByUser userID) = .ok replicationSet)
    (hset : replicationSet.Ingesters = A :: rest)
    (hbody : readBody r = .ok body) :
    (d.doRead tc userID w r).2.2 =
      [.ringGet (shardByUser userID), .amSendsInc A.Addr] ++ (d.doRequest A r body).2 ++
        (match (d.doRequest A r body).1 with
          | .ok _ => []
          | .error _ => [.amSendFailuresInc A.Addr]) := by
  have hfirst : replicationSet.Ingesters[0]? = some A := by rw [hset]; simp
  unfold Distributor.doRead
  simp only [hget, hfirst, hbody]
  rcases hreq : d.doRequest A r body with ⟨res, events⟩
  cases res with
  | error err => simp
  | ok resp =>
    simp only
    by_cases hs : resp.GetStatus = .OK
    · simp only [hs, ne_eq, not_true_eq_false, if_false]
      cases resp.HttpResponse <;> simp
    · simp [hs]

/-- Claim C3: for every read for which the ring returns, without error, a
non-empty replica set `A :: rest` and whose body is readable, `doRead`
issues exactly one backend request, `doRequest` for `A`: its effects are the
ring query, the send counter of `A`, the effects of that one `doRequest`
and, if it failed, the failure counter of `A`.  The only pool lookup is for
the address of `A`, the unary calls issued are that one call to `A` when the
pool yields its client and none otherwise, and nothing is looked up or
called for any replica of `rest`, whatever `rest` is and whether or not the
request to `A` fails. -/
theorem doRead_calls_first_replica_only (d : Distributor) (tc : http.Toolchain)
    (userID : GoString) (w : http.ResponseWriter) (r : http.Request)
    (replicationSet : ring.ReplicationSet)
    (A : ring.IngesterDesc) (rest : List ring.IngesterDesc) (body : List UInt8)
    (hget : d.alertmanagerRing.Get (shardByUser userID) = .ok replicationSet)
    (hset : replicationSet.Ingesters = A :: rest)
    (hbody : readBody r = .ok body) :
    (d.doRead tc userID w r).2.2 =
      [.ringGet (shardByUser userID), .amSendsInc A.Addr] ++ (d.doRequest A r body).2 ++
        (match (d.doRequest A r body).1 with
          | .ok _ => []
          | .error _ => [.amSendFailuresInc A.Addr]) ∧
    poolLookups (d.doRead tc userID w r).2.2 = [A.Addr] ∧
    unaryCalls (d.doRead tc userID w r).2.2 =
      (match d.alertmanagerClientsPool.GetClientFor A.Addr with
        | .ok _ => [A.Addr]
        | .error _ => []) := by
  have hev := doRead_events d tc userID w r replicationSet A rest body hget hset hbody
  obtain ⟨hp, hu, -, -, -⟩ := doRequest_events d A r body
  refine ⟨hev, ?_, ?_⟩
  · rw [hev, poolLookups_append, poolLookups_append, hp]
    cases (d.doRequest A r body).1 <;> simp [poolLookups]
  · rw [hev, unaryCalls_append, unaryCalls_append, hu]
    cases (d.doRequest A r body).1 <;> simp [unaryCalls]

/-- Claim C3 at a concrete input: the replica set is `[am-a, am-b, am-c]`,
the request to `am-a` fails at the transport layer, `am-b` and `am-c` would
answer; the one lookup and the one call go to `am-a`. -/
theorem doRead_calls_first_replica_only_witness :
    poolLookups ((fixture.distributor 3 fixture.abc
        (fun addr => if addr = str "am-a" then fixture.transportFailure else fixture.okReply)).doRead
      fixture.go115 (str "tenant-1") http.NewRecorder (fixture.request "GET")).2.2 = [str "am-a"] ∧
    unaryCalls ((fixture.distributor 3 fixture.abc
        (fun addr => if addr = str "am-a" then fixture.transportFailure else fixture.okReply)).doRead
      fixture.go115 (str "tenant-1") http.NewRecorder (fixture.request "GET")).2.2 = [str "am-a"] :=
  (doRead_calls_first_replica_only
    (fixture.distributor 3 fixture.abc
      (fun addr => if addr = str "am-a" then fixture.transportFailure else fixture.okReply))
    fixture.go115 (str "tenant-1") http.NewRecorder (fixture.request "GET") _ (fixture.replica "am-a")
    [fixture.replica "am-b", fixture.replica "am-c"] [] rfl rfl rfl).2

theorem doRead_ok_path (d : Distributor) (tc : http.Toolchain) (userID : GoString)
    (w : http.ResponseWriter) (r : http.Request) (replicationSet : ring.ReplicationSet)
    (amDesc : ring.IngesterDesc) (body : List UInt8) (resp : alertmanagerpb.Response)
    (httpResponse : httpgrpc.HTTPResponse)
    (hget : d.alertmanagerRing.Get (shardByUser userID) = .ok replicationSet)
    (hfirst : replicationSet.Ingesters[0]? = some amDesc)
    (hbody : readBody r = .ok body)
    (hcall : (d.doRequest amDesc r body).1 = .ok resp)
    (hstatus : resp.GetStatus = .OK)
    (hhttp : resp.HttpResponse = some httpResponse) :
    ((d.doRead tc userID w r).1, (d.doRead tc userID w r).2.1) =
      http.Error tc w httpResponse.Body httpResponse.Code := by
  unfold Distributor.doRead
  simp only [hget, hfirst, hbody]
  rcases hreq : d.doRequest amDesc r body with ⟨res, events⟩
  rw [hreq] at hcall
  simp only at hcall
  subst hcall
  simp [hstatus, hhttp]

/-- Claim C5, amended: for every read whose single backend request returns a
response with status OK and an embedded HTTP response (code `c` with three
digits, `100 ≤ c ≤ 999`, body `b`), `doRead` returns and writes, to a
response writer whose header is not yet written, the status code `c` and a
body that is `b` followed by exactly one newline byte (the response goes
out through `http.Error`). -/
theorem doRead_relays_ok_response_with_newline (d : Distributor) (tc : http.Toolchain)
    (userID : GoString) (w : http.ResponseWriter) (r : http.Request)
    (replicationSet : ring.ReplicationSet)
    (amDesc : ring.IngesterDesc) (body : List UInt8) (resp : alertmanagerpb.Response)
    (httpResponse : httpgrpc.HTTPResponse)
    (hget : d.alertmanagerRing.Get (shardByUser userID) = .ok replicationSet)
    (hfirst : replicationSet.Ingesters[0]? = some amDesc)
    (hbody : readBody r = .ok body)
    (hcall : (d.doRequest amDesc r body).1 = .ok resp)
    (hstatus : resp.GetStatus = .OK)
    (hhttp : resp.HttpResponse = some httpResponse)
    (hw : w.Code = none)
    (hlo : 100 ≤ httpResponse.Code) (hhi : httpResponse.Code ≤ 999) :
    (d.doRead tc userID w r).1 = .returned ∧
    (d.doRead tc userID w r).2.1.Code = some httpResponse.Code ∧
    (d.doRead tc userID w r).2.1.Body = w.Body ++ httpResponse.Body ++ [10] := by
  have hp := doRead_ok_path d tc userID w r replicationSet amDesc body resp httpResponse hget
    hfirst hbody hcall hstatus hhttp
  obtain ⟨e1, e2, e3⟩ := http_Error_valid tc w httpResponse.Body httpResponse.Code hw hlo hhi
  rw [← hp] at e1 e2 e3
  exact ⟨e1, e2, e3⟩

/-- The amended claim C5 at a concrete input: the first replica answers OK
with an embedded 200 response whose body is the two bytes of an empty JSON
list. -/
theorem doRead_relays_ok_response_with_newline_witness :
    ((fixture.distributor 3 fixture.abc
        (fun _ => fixture.okReply)).doRead
      fixture.go115 (str "tenant-1") http.NewRecorder (fixture.request "GET")).1 = .returned ∧
    ((fixture.distributor 3 fixture.abc
        (fun _ => fixture.okReply)).doRead
      fixture.go115 (str "tenant-1") http.NewRecorder (fixture.request "GET")).2.1.Code = some 200 ∧
    ((fixture.distributor 3 fixture.abc
        (fun _ => fixture.okReply)).doRead
      fixture.go115 (str "tenant-1") http.NewRecorder (fixture.request "GET")).2.1.Body =
        [] ++ str "[]" ++ [10] :=
  doRead_relays_ok_response_with_newline
    (fixture.distributor 3 fixture.abc
      (fun _ => fixture.okReply))
    fixture.go115 (str "tenant-1") http.NewRecorder (fixture.request "GET") _
    (fixture.replica "am-a") []
    { Status := .OK, HttpResponse := some { Code := 200, Headers := [], Body := str "[]" }, Error := [] }
    { Code := 200, Headers := [], Body := str "[]" } rfl rfl rfl rfl rfl rfl rfl
    (by decide) (by decide)

/-- Claim C5 fails as stated.  When the first replica answers OK with an
embedded response of code 200 and the two-byte body of an empty JSON list,
`doRead` writes three bytes, those two and a newline, so the body written
is not equal to the embedded body.  When the embedded response has the code
0, `doRead` writes no status code at all: `WriteHeader` panics. -/
theorem doRead_body_not_verbatim :
    ((fixture.distributor 3 fixture.abc
        (fun _ => fixture.okReply)).doRead
      fixture.go115 (str "tenant-1") http.NewRecorder (fixture.request "GET")).2.1.Body =
        [91, 93, 10] ∧
    ((fixture.distributor 3 fixture.abc
        (fun _ => fixture.okReply)).doRead
      fixture.go115 (str "tenant-1") http.NewRecorder (fixture.request "GET")).2.1.Body ≠ str "[]" ∧
    ((fixture.distributor 3 fixture.abc
        (fun _ => fixture.zeroCodeReply)).doRead
      fixture.go115 (str "tenant-1") http.NewRecorder (fixture.request "GET")).1 =
        .panicked (.invalidWriteHeaderCode 0) ∧
    ((fixture.distributor 3 fixture.abc
        (fun _ => fixture.zeroCodeReply)).doRead
      fixture.go115 (str "tenant-1") http.NewRecorder (fixture.request "GET")).2.1.Code = none := by
  refine ⟨by decide, by decide, by decide, by decide⟩

theorem WriteHeader_outcome (w : http.ResponseWriter) (code : Int) :
    (w.WriteHeader code).1 = .returned ∨
      (w.WriteHeader code).1 = .panicked (.invalidWriteHeaderCode code) := by
  unfold http.ResponseWriter.WriteHeader
  cases w.Code with
  | some c => exact Or.inl rfl
  | none =>
    by_cases hv : http.validWriteHeaderCode code = true
    · simp [hv]
    · simp [hv]

theorem http_Error_outcome (tc : http.Toolchain) (w : http.ResponseWriter) (error : GoString)
    (code : Int) :
    (http.Error tc w error code).1 = .returned ∨
      (http.Error tc w error code).1 = .panicked (.invalidWriteHeaderCode code) := by
  unfold http.Error http.ResponseWriter.WriteHeader
  cases hc : w.Code with
  | some c => simp [hc]
  | none =>
    by_cases hv : http.validWriteHeaderCode code = true
    · simp [hc, hv]
    · simp [hc, hv]

theorem respondFromError_outcome (tc : http.Toolchain) (err : GoError) (w : http.ResponseWriter) :
    ∃ code, (respondFromError tc err w).1 = .returned ∨
      (respondFromError tc err w).1 = .panicked (.invalidWriteHeaderCode code) := by
  unfold respondFromError
  cases httpgrpc.HTTPResponseFromError (errors.Cause err) with
  | none => exact ⟨_, http_Error_outcome tc w _ _⟩
  | some httpResp => exact ⟨_, http_Error_outcome tc _ _ _⟩

theorem ring_Get_length (r : ring.Ring) (key : Nat) (replicationSet : ring.ReplicationSet)
    (hget : r.Get key = .ok replicationSet) :
    r.ReplicationFactor / 2 + 1 ≤ replicationSet.Ingesters.length := by
  unfold ring.Ring.Get at hget
  simp only at hget
  split at hget
  · cases hget
  · rename_i hlen
    cases hget
    exact Nat.le_of_not_lt hlen

theorem doRead_no_index_panic (alertmanagersRing : ring.Ring) (pool : AlertmanagerClientsPool)
    (tc : http.Toolchain) (userID : GoString) (w : http.ResponseWriter) (r : http.Request)
    (index length : Nat) :
    ((New alertmanagersRing pool).doRead tc userID w r).1 ≠ .panicked (.indexOutOfRange index length) := by
  cases hget : (New alertmanagersRing pool).alertmanagerRing.Get (shardByUser userID) with
  | error err =>
    unfold Distributor.doRead
    simp only [hget]
    rcases WriteHeader_outcome w http.StatusInternalServerError with h | h <;> simp [h]
  | ok replicationSet =>
    have hlen := ring_Get_length alertmanagersRing (shardByUser userID) replicationSet hget
    cases hfirst : replicationSet.Ingesters[0]? with
    | none =>
      rw [List.getElem?_eq_none_iff] at hfirst
      omega
    | some amDesc =>
      cases hbody : readBody r with
      | error err =>
        unfold Distributor.doRead
        simp only [hget, hfirst, hbody]
        rcases WriteHeader_outcome w http.StatusInternalServerError with h | h <;> simp [h]
      | ok body =>
        unfold Distributor.doRead
        simp only [hget, hfirst, hbody]
        rcases hreq : (New alertmanagersRing pool).doRequest amDesc r body with ⟨res, events⟩
        cases res with
        | error err =>
          simp only
          obtain ⟨code, h | h⟩ := respondFromError_outcome tc err w <;> simp [h]
        | ok resp =>
          simp only
          by_cases hs : resp.GetStatus = .OK
          · simp only [hs, ne_eq, not_true_eq_false, if_false]
            cases resp.HttpResponse with
            | none => simp
            | some httpResponse =>
              simp only
              rcases http_Error_outcome tc w httpResponse.Body httpResponse.Code with h | h <;>
                simp [h]
          · simp only [ne_eq, hs, not_false_eq_true, if_true]
            rcases http_Error_outcome tc w resp.Error http.StatusInternalServerError with h | h <;>
              simp [h]

/-- Claim C10: for every replica set that the ring's `Get` returns together
with a nil error to a distributor built by `New` on a ring, the set holds at
least the majority `⌊R/2⌋ + 1` of replicas, hence at least one, so that the
selection of index 0 in `doRead` is in bounds; and whatever the ring
answers, `doRead` never panics on an index out of range.  A set of length 0
is never returned with a nil error: a ring without eligible instance for
the key answers `Get` with an error. -/
theorem doRead_first_replica_in_bounds (alertmanagersRing : ring.Ring)
    (pool : AlertmanagerClientsPool) (tc : http.Toolchain) (userID : GoString)
    (w : http.ResponseWriter) (r : http.Request) (replicationSet : ring.ReplicationSet)
    (hget : (New alertmanagersRing pool).alertmanagerRing.Get (shardByUser userID) =
      .ok replicationSet) :
    0 < replicationSet.Ingesters.length ∧
    (∃ amDesc, replicationSet.Ingesters[0]? = some amDesc) ∧
    (∀ index length : Nat,
      ((New alertmanagersRing pool).doRead tc userID w r).1 ≠
        .panicked (.indexOutOfRange index length)) ∧
    (∀ (other : ring.Ring) (key : Nat),
      ((other.instances key).filter fun am => am.State = .ACTIVE) = [] →
        ∃ err, other.Get key = .error err) := by
  have hlen := ring_Get_length alertmanagersRing (shardByUser userID) replicationSet hget
  have hpos : 0 < replicationSet.Ingesters.length := by omega
  refine ⟨hpos, ?_, ?_, ?_⟩
  · exact ⟨replicationSet.Ingesters[0], by simp [hpos]⟩
  · intro index length
    exact doRead_no_index_panic alertmanagersRing pool tc userID w r index length
  · intro other key hnone
    refine ⟨errors.New (str "too few live replicas"), ?_⟩
    unfold ring.Ring.Get
    simp [hnone]

/-- Claim C10 at a concrete input: a ring of replication factor 3 with the
three active instances `am-a`, `am-b`, `am-c` returns them, the read takes
`am-a` and returns; the same ring without instances answers `Get` with an
error and the read returns after answering 500. -/
theorem doRead_first_replica_in_bounds_witness :
    (0 < fixture.abc.length ∧ ∃ amDesc, fixture.abc[0]? = some amDesc) ∧
    ((New (fixture.ring3 fixture.abc) fixture.okPool).doRead fixture.go115 (str "tenant-1")
      http.NewRecorder (fixture.request "GET")).1 = .returned ∧
    poolLookups ((New (fixture.ring3 fixture.abc) fixture.okPool).doRead fixture.go115
      (str "tenant-1") http.NewRecorder (fixture.request "GET")).2.2 = [str "am-a"] ∧
    ((New (fixture.ring3 []) fixture.okPool).doRead fixture.go115 (str "tenant-1")
      http.NewRecorder (fixture.request "GET")).1 = .returned ∧
    ((New (fixture.ring3 []) fixture.okPool).doRead fixture.go115 (str "tenant-1")
      http.NewRecorder (fixture.request "GET")).2.1.Code = some 500 :=
  have h := doRead_first_replica_in_bounds (fixture.ring3 fixture.abc) fixture.okPool
    fixture.go115 (str "tenant-1") http.NewRecorder (fixture.request "GET")
    { Ingesters := fixture.abc, MaxErrors := 1 } rfl
  ⟨⟨h.1, h.2.1⟩, by decide, by decide, by decide, by decide⟩

/-! ## Entry point and counters -/

theorem run_append (c : Counters) (a b : List Event) : c.run (a ++ b) = (c.run a).run b := by
  simp [Counters.run, List.foldl_append]

/-- Claim C7: for every request whose context yields no tenant identity,
`DistributeRequest` returns after answering 401 (with the text of the error
and a newline as body, on a response writer whose header is not yet
written); its only effects are the registration with and the deregistration
from the wait group, so that the ring is not queried, no client is looked
up, no call is issued, and the counters of send attempts, send failures and
received requests are unchanged. -/
theorem DistributeRequest_missing_tenant (d : Distributor) (tc : http.Toolchain)
    (w : http.ResponseWriter) (r : http.Request) (err : GoError)
    (htenant : r.TenantID = .error err) (hw : w.Code = none) :
    (d.DistributeRequest tc w r).1 = .returned ∧
    (d.DistributeRequest tc w r).2.1.Code = some 401 ∧
    (d.DistributeRequest tc w r).2.1.Body = w.Body ++ err.Error ++ [10] ∧
    (d.DistributeRequest tc w r).2.2 = [.requestsInFlightAdd 1, .requestsInFlightDone] ∧
    ringQueries (d.DistributeRequest tc w r).2.2 = [] ∧
    poolLookups (d.DistributeRequest tc w r).2.2 = [] ∧
    unaryCalls (d.DistributeRequest tc w r).2.2 = [] ∧
    (∀ c : Counters,
      (c.run (d.DistributeRequest tc w r).2.2).amSends = c.amSends ∧
      (c.run (d.DistributeRequest tc w r).2.2).amSendFailures = c.amSendFailures ∧
      (c.run (d.DistributeRequest tc w r).2.2).receivedRequests = c.receivedRequests) := by
  have h : d.DistributeRequest tc w r =
      ((http.Error tc w err.Error http.StatusUnauthorized).1,
        (http.Error tc w err.Error http.StatusUnauthorized).2,
        [.requestsInFlightAdd 1, .requestsInFlightDone]) := by
    simp [Distributor.DistributeRequest, Distributor.distribute, htenant]
  obtain ⟨e1, e2, e3⟩ := http_Error_valid tc w err.Error http.StatusUnauthorized hw
    (by decide) (by decide)
  rw [h]
  refine ⟨e1, e2, e3, rfl, rfl, rfl, rfl, ?_⟩
  intro c
  simp [Counters.run, Counters.step]

/-- Claim C7 at a concrete input: a request without tenant identity sent to
a distributor with three healthy replicas is answered 401 and produces only
the two wait group events. -/
theorem DistributeRequest_missing_tenant_witness :
    ((fixture.distributor 3 fixture.abc (fun _ => fixture.okReply)).DistributeRequest
      fixture.go115 http.NewRecorder
      { fixture.request "POST" with TenantID := .error (.plain (str "no org id")) }).2.1.Code =
        some 401 ∧
    unaryCalls ((fixture.distributor 3 fixture.abc
        (fun _ => fixture.okReply)).DistributeRequest fixture.go115 http.NewRecorder
      { fixture.request "POST" with TenantID := .error (.plain (str "no org id")) }).2.2 = [] :=
  have h := DistributeRequest_missing_tenant
    (fixture.distributor 3 fixture.abc (fun _ => fixture.okReply))
    fixture.go115 http.NewRecorder
    { fixture.request "POST" with TenantID := .error (.plain (str "no org id")) }
    (.plain (str "no org id")) rfl rfl
  ⟨h.2.1, h.2.2.2.2.2.2.1⟩

theorem doWriteCallback_eq (d : Distributor) (r : http.Request) (body : List UInt8)
    (am : ring.IngesterDesc) :
    d.doWriteCallback r body am =
      ((match (d.doRequest am r body).1 with
          | .error err => some err
          | .ok resp =>
            if resp.GetStatus = .OK then none
            else some (errors.New (str "alertmanager grpc request not ok"))),
        .amSendsInc am.Addr :: (d.doRequest am r body).2 ++
          (match (d.doRequest am r body).1 with
            | .error _ => [.amSendFailuresInc am.Addr]
            | .ok _ => [])) := by
  unfold Distributor.doWriteCallback
  rcases hreq : d.doRequest am r body with ⟨res, events⟩
  cases res with
  | error err => simp
  | ok resp => by_cases hs : resp.GetStatus = .OK <;> simp [hs]

/-- Claim C8, amended: for every replica call of a write, the effects of the
call begin with the increment of the send counter of the replica address,
before the request is issued, and that counter goes up by one.  When the
request fails at the transport layer (`doRequest` returns an error), the
failure counter of that address goes up by one and the call is reported as
failed with that error.  When the request returns a response, no failure
counter changes; the call is reported as succeeded when the status is OK and
as failed when the status is other than OK. -/
theorem doWriteCallback_counts (d : Distributor) (r : http.Request) (body : List UInt8)
    (am : ring.IngesterDesc) (c : Counters) :
    (d.doWriteCallback r body am).2 =
      .amSendsInc am.Addr :: (d.doRequest am r body).2 ++
        (match (d.doRequest am r body).1 with
          | .error _ => [.amSendFailuresInc am.Addr]
          | .ok _ => []) ∧
    (c.run (d.doWriteCallback r body am).2).amSends am.Addr = c.amSends am.Addr + 1 ∧
    (match (d.doRequest am r body).1 with
      | .error err =>
        (d.doWriteCallback r body am).1 = some err ∧
        (c.run (d.doWriteCallback r body am).2).amSendFailures am.Addr =
          c.amSendFailures am.Addr + 1
      | .ok resp =>
        (d.doWriteCallback r body am).1 =
          (if resp.GetStatus = .OK then none
            else some (errors.New (str "alertmanager grpc request not ok"))) ∧
        (c.run (d.doWriteCallback r body am).2).amSendFailures = c.amSendFailures) := by
  rw [doWriteCallback_eq]
  obtain ⟨-, -, -, -, hc⟩ := doRequest_events d am r body
  obtain ⟨-, -, h3, h4⟩ := hc (c.step (.amSendsInc am.Addr))
  have hrun : ∀ tail : List Event,
      c.run (.amSendsInc am.Addr :: (d.doRequest am r body).2 ++ tail) =
        ((c.step (.amSendsInc am.Addr)).run (d.doRequest am r body).2).run tail := by
    intro tail
    rw [← run_append]
    rfl
  generalize (c.step (.amSendsInc am.Addr)).run (d.doRequest am r body).2 = c2 at h3 h4 hrun
  have h3a : c2.amSends am.Addr = c.amSends am.Addr + 1 := by
    rw [h3]
    simp [Counters.step]
  have h4a : c2.amSendFailures = c.amSendFailures := by
    rw [h4]
    rfl
  refine ⟨rfl, ?_, ?_⟩
  · rw [hrun]
    cases (d.doRequest am r body).1 <;> simpa [Counters.run, Counters.step] using h3a
  · cases hres : (d.doRequest am r body).1 with
    | error err =>
      dsimp only
      refine ⟨rfl, ?_⟩
      rw [hrun]
      simp [Counters.run, Counters.step, h4a]
    | ok resp =>
      dsimp only
      refine ⟨rfl, ?_⟩
      rw [hrun]
      simpa [Counters.run] using h4a

/-- Claim C8 fails as stated: a replica that answers with status ERROR makes
the call fail (the callback returns an error), yet the failure counter of
its address stays at its value, here zero, while the send counter goes from
zero to one. -/
theorem doWriteCallback_status_error_not_counted :
    ((fixture.distributor 3 fixture.abc (fun _ => fixture.errorReply)).doWriteCallback
      (fixture.request "POST") [] (fixture.replica "am-a")).1 =
        some (errors.New (str "alertmanager grpc request not ok")) ∧
    (fixture.zero.run
      ((fixture.distributor 3 fixture.abc (fun _ => fixture.errorReply)).doWriteCallback
        (fixture.request "POST") [] (fixture.replica "am-a")).2).amSendFailures (str "am-a") = 0 ∧
    (fixture.zero.run
      ((fixture.distributor 3 fixture.abc (fun _ => fixture.errorReply)).doWriteCallback
        (fixture.request "POST") [] (fixture.replica "am-a")).2).amSends (str "am-a") = 1 := by
  refine ⟨by decide, by decide, by decide⟩

/-! ## In-flight counter -/

theorem run_requestsInFlight (c : Counters) (events : List Event)
    (h : ∀ e ∈ events, e.isInFlight = false) :
    (c.run events).requestsInFlight = c.requestsInFlight := by
  induction events generalizing c with
  | nil => rfl
  | cons e events ih =>
    have he : e.isInFlight = false := h e (List.mem_cons_self _ _)
    have ht : ∀ x ∈ events, x.isInFlight = false := fun x hx => h x (List.mem_cons_of_mem _ hx)
    show ((c.step e).run events).requestsInFlight = c.requestsInFlight
    rw [ih (c.step e) ht]
    cases e <;> simp_all [Counters.step, Event.isInFlight]

theorem doRead_no_inFlight (d : Distributor) (tc : http.Toolchain) (userID : GoString)
    (w : http.ResponseWriter) (r : http.Request) :
    ∀ e ∈ (d.doRead tc userID w r).2.2, e.isInFlight = false := by
  cases hget : d.alertmanagerRing.Get (shardByUser userID) with
  | error err =>
    unfold Distributor.doRead
    simp [hget, Event.isInFlight]
  | ok replicationSet =>
    cases hfirst : replicationSet.Ingesters[0]? with
    | none =>
      unfold Distributor.doRead
      simp [hget, hfirst, Event.isInFlight]
    | some amDesc =>
      cases hbody : readBody r with
      | error err =>
        unfold Distributor.doRead
        simp [hget, hfirst, hbody, Event.isInFlight]
      | ok body =>
        unfold Distributor.doRead
        simp only [hget, hfirst, hbody]
        obtain ⟨-, -, -, hin, -⟩ := doRequest_events d amDesc r body
        rcases hreq : d.doRequest amDesc r body with ⟨res, events⟩
        rw [hreq] at hin
        simp only at hin
        have key : ∀ e ∈ [Event.ringGet (shardByUser userID), Event.amSendsInc amDesc.Addr] ++ events,
            e.isInFlight = false := by
          intro e he
          simp only [List.mem_append, List.mem_cons, List.mem_singleton, List.not_mem_nil,
            or_false] at he
          rcases he with (rfl | rfl) | he
          · rfl
          · rfl
          · exact hin e he
        cases res with
        | error err =>
          intro e he
          rcases List.mem_append.1 he with he | he
          · exact key e he
          · rw [List.mem_singleton.1 he]
            rfl
        | ok resp =>
          simp only
          by_cases hs : resp.GetStatus = .OK
          · simp only [hs, ne_eq, not_true_eq_false, if_false]
            cases resp.HttpResponse <;> exact key
          · simp only [ne_eq, hs, not_false_eq_true, if_true]
            exact key

theorem doWriteCallback_no_inFlight (d : Distributor) (r : http.Request) (body : List UInt8)
    (am : ring.IngesterDesc) : ∀ e ∈ (d.doWriteCallback r body am).2, e.isInFlight = false := by
  rw [doWriteCallback_eq]
  obtain ⟨-, -, -, hin, -⟩ := doRequest_events d am r body
  intro e he
  simp only [List.cons_append, List.mem_cons, List.mem_append] at he
  rcases he with rfl | he | he
  · rfl
  · exact hin e he
  · cases hres : (d.doRequest am r body).1 with
    | error err =>
      rw [hres] at he
      rw [List.mem_singleton.1 he]
      rfl
    | ok resp =>
      rw [hres] at he
      cases he

theorem doWrite_no_inFlight (d : Distributor) (tc : http.Toolchain) (userID : GoString)
    (w : http.ResponseWriter) (r : http.Request) :
    ∀ e ∈ (d.doWrite tc userID w r).2.2, e.isInFlight = false := by
  unfold Distributor.doWrite
  cases hbody : readBody r with
  | error err => simp [Event.isInFlight]
  | ok body =>
    simp only
    have key : ∀ e ∈ (ring.DoBatch r.CtxErr d.alertmanagerRing (shardByUser userID)
        (d.doWriteCallback r body)).2, e.isInFlight = false := by
      unfold ring.DoBatch
      cases hget : d.alertmanagerRing.Get (shardByUser userID) with
      | error err => simp [Event.isInFlight]
      | ok replicationSet =>
        intro e he
        simp only [List.map_map, List.mem_cons, List.mem_flatten, List.mem_map,
          Function.comp_apply] at he
        rcases he with rfl | ⟨l, ⟨am, -, rfl⟩, hel⟩
        · rfl
        · exact doWriteCallback_no_inFlight d r body am e hel
    rcases hb : ring.DoBatch r.CtxErr d.alertmanagerRing (shardByUser userID)
      (d.doWriteCallback r body) with ⟨err, events⟩
    rw [hb] at key
    cases err <;> exact key

theorem distribute_no_inFlight (d : Distributor) (tc : http.Toolchain) (w : http.ResponseWriter)
    (r : http.Request) : ∀ e ∈ (d.distribute tc w r).2.2, e.isInFlight = false := by
  unfold Distributor.distribute
  cases htenant : r.TenantID with
  | error err => simp
  | ok userID =>
    simp only
    by_cases hm : r.Method = http.MethodGet
    · simp only [hm, if_true]
      intro e he
      simp only [List.mem_cons] at he
      rcases he with rfl | he
      · rfl
      · exact doRead_no_inFlight d tc userID w r e he
    · simp only [hm, if_false]
      intro e he
      simp only [List.mem_cons] at he
      rcases he with rfl | he
      · rfl
      · exact doWrite_no_inFlight d tc userID w r e he

/-- Claim C9: for every call of `DistributeRequest`, whatever path it takes
(missing tenant, body read error, ring error, backend failure, success, and
also a panic inside the read or the write), its effects are the registration
`requestsInFlight.Add(1)`, then the effects of the body, none of which
touches the wait group, then the deregistration `requestsInFlight.Done()`.
The counter after the call equals the counter before it; after any number
`n` of the effects it is the initial value plus one, unless `n` is zero or
the deregistration has been performed, when it is the initial value; so it
is never below its initial value. -/
theorem DistributeRequest_inFlight_balanced (d : Distributor) (tc : http.Toolchain)
    (w : http.ResponseWriter) (r : http.Request) (c : Counters) :
    (d.DistributeRequest tc w r).2.2 =
      .requestsInFlightAdd 1 :: (d.distribute tc w r).2.2 ++ [.requestsInFlightDone] ∧
    (∀ e ∈ (d.distribute tc w r).2.2, e.isInFlight = false) ∧
    (c.run (d.DistributeRequest tc w r).2.2).requestsInFlight = c.requestsInFlight ∧
    (∀ n : Nat, (c.run ((d.DistributeRequest tc w r).2.2.take n)).requestsInFlight =
      if n = 0 ∨ (d.distribute tc w r).2.2.length + 2 ≤ n then c.requestsInFlight
      else c.requestsInFlight + 1) ∧
    (∀ n : Nat, c.requestsInFlight ≤ (c.run ((d.DistributeRequest tc w r).2.2.take n)).requestsInFlight) := by
  have hev : (d.DistributeRequest tc w r).2.2 =
      .requestsInFlightAdd 1 :: (d.distribute tc w r).2.2 ++ [.requestsInFlightDone] := rfl
  have hmid := distribute_no_inFlight d tc w r
  have htake : ∀ n : Nat, (c.run ((d.DistributeRequest tc w r).2.2.take n)).requestsInFlight =
      if n = 0 ∨ (d.distribute tc w r).2.2.length + 2 ≤ n then c.requestsInFlight
      else c.requestsInFlight + 1 := by
    intro n
    rw [hev]
    generalize (d.distribute tc w r).2.2 = mid at hmid
    cases n with
    | zero => simp [Counters.run]
    | succ m =>
      simp only [List.cons_append, List.take_succ_cons]
      show ((c.step (.requestsInFlightAdd 1)).run
        (List.take m (mid ++ [.requestsInFlightDone]))).requestsInFlight = _
      by_cases hm : m ≤ mid.length
      · rw [List.take_append_of_le_length hm,
          run_requestsInFlight _ _ (fun e he => hmid e (List.mem_of_mem_take he))]
        have : ¬ (m + 1 = 0 ∨ mid.length + 2 ≤ m + 1) := by omega
        rw [if_neg this]
        rfl
      · have hlen : (mid ++ [Event.requestsInFlightDone]).length ≤ m := by
          simp only [List.length_append, List.length_singleton]
          omega
        rw [List.take_of_length_le hlen, run_append, Counters.run, Counters.run,
          List.foldl_cons, List.foldl_nil]
        have h1 := run_requestsInFlight (c.step (.requestsInFlightAdd 1)) mid hmid
        simp only [Counters.run] at h1
        have : (m + 1 = 0 ∨ mid.length + 2 ≤ m + 1) := by omega
        simp only [this, if_true]
        show (List.foldl Counters.step (c.step (.requestsInFlightAdd 1)) mid).requestsInFlight - 1 = _
        rw [h1]
        simp [Counters.step]
  refine ⟨hev, hmid, ?_, htake, ?_⟩
  · have h := htake ((d.distribute tc w r).2.2.length + 2)
    rw [List.take_of_length_le (by rw [hev]; simp)] at h
    simpa using h
  · intro n
    rw [htake n]
    split <;> omega

/-! ## Write fan-out: the quorum law -/

theorem quorum_decides (minSuccess n : Nat) (results : List (Option GoError))
    (succeeded failed : Nat)
    (hs : succeeded < minSuccess) (hf : failed + minSuccess ≤ n)
    (hn : succeeded + failed + results.length = n) :
    (minSuccess ≤ succeeded + results.countP (fun res => res.isNone) →
      ring.quorum minSuccess n results succeeded failed = some none) ∧
    (succeeded + results.countP (fun res => res.isNone) < minSuccess →
      ∃ err, some err ∈ results ∧
        ring.quorum minSuccess n results succeeded failed = some (some err)) := by
  induction results generalizing succeeded failed with
  | nil =>
    simp only [List.length_nil] at hn
    constructor <;> intro h <;> simp only [List.countP_nil] at h <;> omega
  | cons res rest ih =>
    simp only [List.length_cons] at hn
    cases res with
    | none =>
      have hc : (none :: rest).countP (fun res : Option GoError => res.isNone) =
          rest.countP (fun res => res.isNone) + 1 := by
        rw [List.countP_cons_of_pos]
        rfl
      rw [hc]
      by_cases hdone : minSuccess ≤ succeeded + 1
      · simp only [ring.quorum, hdone, if_true]
        refine ⟨fun _ => trivial, fun h => ?_⟩
        omega
      · simp only [ring.quorum, hdone, if_false]
        obtain ⟨ih1, ih2⟩ := ih (succeeded + 1) failed (by omega) hf (by omega)
        constructor
        · intro h
          exact ih1 (by omega)
        · intro h
          obtain ⟨err, hmem, hq⟩ := ih2 (by omega)
          exact ⟨err, List.mem_cons_of_mem _ hmem, hq⟩
    | some e =>
      have hc : (some e :: rest).countP (fun res : Option GoError => res.isNone) =
          rest.countP (fun res => res.isNone) := by
        rw [List.countP_cons_of_neg]
        simp
      rw [hc]
      have hle : rest.countP (fun res : Option GoError => res.isNone) ≤ rest.length :=
        List.countP_le_length _
      by_cases hdone : n < minSuccess + (failed + 1)
      · simp only [ring.quorum, hdone, if_true]
        refine ⟨fun h => ?_, fun _ => ⟨e, List.mem_cons_self _ _, rfl⟩⟩
        omega
      · simp only [ring.quorum, hdone, if_false]
        obtain ⟨ih1, ih2⟩ := ih succeeded (failed + 1) hs (by omega) (by omega)
        constructor
        · intro h
          exact ih1 h
        · intro h
          obtain ⟨err, hmem, hq⟩ := ih2 h
          exact ⟨err, List.mem_cons_of_mem _ hmem, hq⟩

theorem countP_isNone_add_isSome (f : ring.IngesterDesc → Option GoError × List Event)
    (l : List ring.IngesterDesc) :
    l.countP (fun am => (f am).1.isNone) + l.countP (fun am => (f am).1.isSome) = l.length := by
  induction l with
  | nil => rfl
  | cons a l ih =>
    cases h : (f a).1 <;> simp [List.countP_cons, h] <;> omega

theorem DoBatch_quorum (ctxErr : GoError) (r : ring.ReadRing) (key : Nat)
    (callback : ring.IngesterDesc → Option GoError × List Event)
    (replicationSet : ring.ReplicationSet) (R k : Nat)
    (hR : 1 ≤ R) (hrf : r.ReplicationFactor = R)
    (hget : r.Get key = .ok replicationSet)
    (hlen : replicationSet.Ingesters.length = R)
    (hk : replicationSet.Ingesters.countP (fun am => (callback am).1.isSome) = k) :
    (k < R - (R / 2 + 1) + 1 → (ring.DoBatch ctxErr r key callback).1 = none) ∧
    (¬ k < R - (R / 2 + 1) + 1 →
      ∃ am ∈ replicationSet.Ingesters, ∃ err, (callback am).1 = some err ∧
        (ring.DoBatch ctxErr r key callback).1 = some err) := by
  have hsum := countP_isNone_add_isSome callback replicationSet.Ingesters
  have hcount : ((replicationSet.Ingesters.map callback).map Prod.fst).countP
      (fun res => res.isNone) =
      replicationSet.Ingesters.countP (fun am => (callback am).1.isNone) := by
    rw [List.map_map, List.countP_map]
    rfl
  obtain ⟨q1, q2⟩ := quorum_decides (R / 2 + 1) R
    ((replicationSet.Ingesters.map callback).map Prod.fst) 0 0 (by omega) (by omega)
    (by simp [hlen])
  rw [hcount] at q1 q2
  unfold ring.DoBatch
  simp only [hget, hrf, hlen]
  constructor
  · intro h
    rw [q1 (by omega)]
    rfl
  · intro h
    obtain ⟨err, hmem, hq⟩ := q2 (by omega)
    simp only [List.map_map, List.mem_map, Function.comp_apply] at hmem
    obtain ⟨am, ham, hres⟩ := hmem
    refine ⟨am, ham, err, hres, ?_⟩
    rw [hq]
    rfl

/-- Claim C2: for every replication factor `R ≥ 1` and every write whose
body is readable and whose replica set, returned by the ring without error,
has `R` replicas of which `k` replica calls fail (the others succeed), the
write answers with the success response, a bare `WriteHeader(200)` that
leaves the body empty, if and only if `k < R - (⌊R/2⌋+1) + 1`, that is, if
and only if at least `⌊R/2⌋+1` replica calls succeeded.  Otherwise the
answer is `respondFromError` of the error of one of the failed replica
calls, which never is that response: it writes a body, or it panics before
any status is written. -/
theorem doWrite_quorum (d : Distributor) (tc : http.Toolchain) (userID : GoString)
    (w : http.ResponseWriter) (r : http.Request) (replicationSet : ring.ReplicationSet)
    (body : List UInt8) (R k : Nat)
    (hR : 1 ≤ R)
    (hrf : d.alertmanagerRing.ReplicationFactor = R)
    (hget : d.alertmanagerRing.Get (shardByUser userID) = .ok replicationSet)
    (hlen : replicationSet.Ingesters.length = R)
    (hbody : readBody r = .ok body)
    (hk : replicationSet.Ingesters.countP (fun am => (d.doWriteCallback r body am).1.isSome) = k)
    (hw : w.Code = none) :
    (((d.doWrite tc userID w r).2.1.Code = some 200 ∧ (d.doWrite tc userID w r).2.1.Body = w.Body) ↔
      k < R - (R / 2 + 1) + 1) ∧
    (k < R - (R / 2 + 1) + 1 ↔
      R / 2 + 1 ≤ replicationSet.Ingesters.countP (fun am => (d.doWriteCallback r body am).1.isNone)) ∧
    (k < R - (R / 2 + 1) + 1 →
      (d.doWrite tc userID w r).1 = .returned ∧
      (d.doWrite tc userID w r).2.1 = { w with Code := some 200 }) ∧
    (¬ k < R - (R / 2 + 1) + 1 →
      ∃ am ∈ replicationSet.Ingesters, ∃ err, (d.doWriteCallback r body am).1 = some err ∧
        ((d.doWrite tc userID w r).1, (d.doWrite tc userID w r).2.1) = respondFromError tc err w) := by
  obtain ⟨b1, b2⟩ := DoBatch_quorum r.CtxErr d.alertmanagerRing (shardByUser userID)
    (d.doWriteCallback r body) replicationSet R k hR hrf hget hlen hk
  have hsum := countP_isNone_add_isSome (d.doWriteCallback r body) replicationSet.Ingesters
  have hsucc : k < R - (R / 2 + 1) + 1 →
      (d.doWrite tc userID w r).1 = .returned ∧
      (d.doWrite tc userID w r).2.1 = { w with Code := some 200 } := by
    intro h
    unfold Distributor.doWrite
    rw [hbody]
    simp only
    rw [b1 h]
    simp only
    rw [WriteHeader_valid w http.StatusOK hw (by decide) (by decide)]
    exact ⟨rfl, rfl⟩
  have hfail : ¬ k < R - (R / 2 + 1) + 1 →
      ∃ am ∈ replicationSet.Ingesters, ∃ err, (d.doWriteCallback r body am).1 = some err ∧
        ((d.doWrite tc userID w r).1, (d.doWrite tc userID w r).2.1) =
          respondFromError tc err w := by
    intro h
    obtain ⟨am, ham, err, hcb, hb⟩ := b2 h
    exact ⟨am, ham, err, hcb, doWrite_failure_path d tc userID w r body err hbody hb⟩
  refine ⟨⟨?_, ?_⟩, ?_, hsucc, hfail⟩
  · intro hbare
    by_contra h
    obtain ⟨am, -, err, -, heq⟩ := hfail h
    have h2 : (d.doWrite tc userID w r).2.1 = (respondFromError tc err w).2 :=
      congrArg Prod.snd heq
    rw [h2] at hbare
    exact respondFromError_not_bare tc err w hbare
  · intro h
    rw [(hsucc h).2]
    exact ⟨rfl, rfl⟩
  · omega

/-- Claim C2 at `R = 3`: with the replica set `[am-a, am-b, am-c]`, zero or
one failing replica gives the empty 200 response, two or three failing
replicas do not. -/
theorem doWrite_quorum_witness :
    (((fixture.distributor 3 fixture.abc (fixture.backend [])).doWrite
        fixture.go115 (str "tenant-1") http.NewRecorder (fixture.request "POST")).2.1.Code = some 200 ∧
      ((fixture.distributor 3 fixture.abc (fixture.backend [])).doWrite
        fixture.go115 (str "tenant-1") http.NewRecorder (fixture.request "POST")).2.1.Body = []) ∧
    (((fixture.distributor 3 fixture.abc (fixture.backend [str "am-b"])).doWrite
        fixture.go115 (str "tenant-1") http.NewRecorder (fixture.request "POST")).2.1.Code = some 200 ∧
      ((fixture.distributor 3 fixture.abc (fixture.backend [str "am-b"])).doWrite
        fixture.go115 (str "tenant-1") http.NewRecorder (fixture.request "POST")).2.1.Body = []) ∧
    ¬ (((fixture.distributor 3 fixture.abc (fixture.backend [str "am-a", str "am-c"])).doWrite
        fixture.go115 (str "tenant-1") http.NewRecorder (fixture.request "POST")).2.1.Code = some 200 ∧
      ((fixture.distributor 3 fixture.abc (fixture.backend [str "am-a", str "am-c"])).doWrite
        fixture.go115 (str "tenant-1") http.NewRecorder (fixture.request "POST")).2.1.Body = []) ∧
    ¬ (((fixture.distributor 3 fixture.abc
          (fixture.backend [str "am-a", str "am-b", str "am-c"])).doWrite
        fixture.go115 (str "tenant-1") http.NewRecorder (fixture.request "POST")).2.1.Code = some 200 ∧
      ((fixture.distributor 3 fixture.abc
          (fixture.backend [str "am-a", str "am-b", str "am-c"])).doWrite
        fixture.go115 (str "tenant-1") http.NewRecorder (fixture.request "POST")).2.1.Body = []) :=
  ⟨(doWrite_quorum (fixture.distributor 3 fixture.abc (fixture.backend []))
      fixture.go115 (str "tenant-1") http.NewRecorder (fixture.request "POST") _ [] 3 0
      (by decide) rfl rfl rfl rfl (by decide) rfl).1.mpr (by decide),
   (doWrite_quorum (fixture.distributor 3 fixture.abc (fixture.backend [str "am-b"]))
      fixture.go115 (str "tenant-1") http.NewRecorder (fixture.request "POST") _ [] 3 1
      (by decide) rfl rfl rfl rfl (by decide) rfl).1.mpr (by decide),
   fun h => absurd
    ((doWrite_quorum (fixture.distributor 3 fixture.abc (fixture.backend [str "am-a", str "am-c"]))
      fixture.go115 (str "tenant-1") http.NewRecorder (fixture.request "POST") _ [] 3 2
      (by decide) rfl rfl rfl rfl (by decide) rfl).1.mp h) (by decide),
   fun h => absurd
    ((doWrite_quorum (fixture.distributor 3 fixture.abc
        (fixture.backend [str "am-a", str "am-b", str "am-c"]))
      fixture.go115 (str "tenant-1") http.NewRecorder (fixture.request "POST") _ [] 3 3
      (by decide) rfl rfl rfl rfl (by decide) rfl).1.mp h) (by decide)⟩

end distributor
